import Mathlib

/-!
PC-CNC: parallel-port handle and actuator sequencing

A shallow embedding of `ParallelPort.cpp` (the port handle) and `cnc.cpp`
(the `Onoff`, `Stepper` and `Machine` classes), followed by theorems about them.

Conventions of the embedding

* C++ member functions mutate the object and may throw.  A member function
  becomes a Lean function from the state before the call to the pair
  (state after the call, outcome).  An exception does not roll anything back:
  the state component is what the object and the device look like when the
  exception leaves the function.
* `Outcome.undefined` marks executions that leave the defined behaviour of
  C++ (an array index outside the table, a signed overflow, a division by
  zero, an over-wide shift).
* The operating system (`open`, `close`, `ioctl`, `usleep`) is not part of the
  repository.  It is represented by `Device`, a simulated port: three 8-bit
  registers, a claim flag, and the chronological trace of the system calls
  issued so far.  The return code of every system call is supplied by a
  script `sys : Nat → Int`: the call issued when the trace holds `k` events
  returns `sys k`.  A call given a negative code has no effect on the device.
* Target: Linux on x86-64 (`char` signed, `int` 32 bits, `long` 64 bits).
* Console output (`cout`, `cerr`) is not modelled.
-/

namespace PCCNC

/-! ## Outcomes -/

/-- The exception codes of `enum ParallelPort_errors` (ParallelPort.h). -/
inductive ParallelPort_errors
  | None
  | Opening
  | Closing
  | Opened
  | Closed
  | Perm
  | Read
  | Write
  | Unknown
  deriving DecidableEq, Repr

/-- How a call ends: normally with a value, by throwing a `ParallelPort_errors`
value, or by leaving the defined behaviour of the language. -/
inductive Outcome (α : Type)
  | ok (a : α)
  | throw (e : ParallelPort_errors)
  | undefined
  deriving DecidableEq, Repr

/-- Sequencing of two steps of a function body: the continuation runs only when
the first step ended normally; an exception or undefined behaviour propagates
with the state reached so far. -/
def andThen {σ α β : Type} (r : σ × Outcome α) (k : σ → α → σ × Outcome β) : σ × Outcome β :=
  match r.2 with
  | Outcome.ok a => k r.1 a
  | Outcome.throw e => (r.1, Outcome.throw e)
  | Outcome.undefined => (r.1, Outcome.undefined)

/-! ## The simulated device -/

/-- The `ioctl` requests of `linux/ppdev.h` used by ParallelPort.cpp. -/
inductive Request
  | PPCLAIM
  | PPRELEASE
  | PPRDATA
  | PPWDATA
  | PPRSTATUS
  | PPRCONTROL
  | PPWCONTROL
  | PPDATADIR
  deriving DecidableEq, Repr

/-- One system call as seen by the operating system, with its return code.
For `ioctl`, `arg` is the value passed through the pointer argument
(the byte to write, the direction) and 0 for requests that pass nothing in. -/
inductive Event
  | sysOpen (name : String) (ret : Int)
  | sysClose (fd : Int) (ret : Int)
  | ioctl (fd : Int) (req : Request) (arg : Nat) (ret : Int)
  | usleep (usec : Nat)
  deriving DecidableEq, Repr

/-- The simulated parallel-port device and the record of the calls made on it. -/
structure Device where
  data : Fin 256
  ctrl : Fin 256
  stat : Fin 256
  dirIn : Bool
  claimed : Bool
  fdOpen : Bool
  trace : List Event
  deriving DecidableEq, Repr

/-- An 8-bit register value from a number. -/
def byte (n : Nat) : Fin 256 := ⟨n % 256, Nat.mod_lt n (by decide)⟩

/-- Result of a system call that returns only a code. -/
structure SysResult where
  ret : Int
  dev : Device

/-- Result of an `ioctl`: return code, byte stored through the pointer argument
(meaningful for the read requests when the call succeeds), device afterwards. -/
structure IoctlResult where
  ret : Int
  out : Nat
  dev : Device

/-- What a successful `ioctl` request does to the simulated port. -/
def ioctlEffect (req : Request) (arg : Nat) (d : Device) : Device :=
  match req with
  | Request.PPCLAIM => { d with claimed := true }
  | Request.PPRELEASE => { d with claimed := false }
  | Request.PPWDATA => { d with data := byte arg }
  | Request.PPWCONTROL => { d with ctrl := byte arg }
  | Request.PPDATADIR => { d with dirIn := decide (arg ≠ 0) }
  | Request.PPRDATA => d
  | Request.PPRSTATUS => d
  | Request.PPRCONTROL => d

/-- The byte a read request stores through its pointer argument. -/
def ioctlOut (req : Request) (d : Device) : Nat :=
  match req with
  | Request.PPRDATA => d.data.val
  | Request.PPRSTATUS => d.stat.val
  | Request.PPRCONTROL => d.ctrl.val
  | _ => 0

/-- System call `open(name, O_RDWR)`: returns a descriptor, or a negative code. -/
def sysOpen (sys : Nat → Int) (name : String) (d : Device) : SysResult :=
  { ret := sys d.trace.length,
    dev := { d with fdOpen := if sys d.trace.length < 0 then d.fdOpen else true,
                    trace := d.trace ++ [Event.sysOpen name (sys d.trace.length)] } }

/-- System call `close(fd)`. -/
def sysClose (sys : Nat → Int) (fd : Int) (d : Device) : SysResult :=
  { ret := sys d.trace.length,
    dev := { d with fdOpen := if sys d.trace.length < 0 then d.fdOpen else false,
                    trace := d.trace ++ [Event.sysClose fd (sys d.trace.length)] } }

/-- System call `ioctl(fd, req, &arg)` on the simulated port. -/
def ioctl (sys : Nat → Int) (fd : Int) (req : Request) (arg : Nat) (d : Device) : IoctlResult :=
  { ret := sys d.trace.length,
    out := ioctlOut req d,
    dev := { (if sys d.trace.length < 0 then d else ioctlEffect req arg d) with
             trace := d.trace ++ [Event.ioctl fd req arg (sys d.trace.length)] } }

/-- System call `usleep(usec)`; its return code is ignored by every caller. -/
def usleep (usec : Nat) (d : Device) : Device :=
  { d with trace := d.trace ++ [Event.usleep usec] }

/-! ## ParallelPort (ParallelPort.h, ParallelPort.cpp) -/

/-- The private fields of `class ParallelPort`. -/
structure ParallelPort where
  mPortName : String
  mPortFD : Int
  mPortOpened : Bool
  mPortSavedRegs : Nat × Nat
  mDataOut : Bool
  deriving DecidableEq, Repr

/-- A port handle together with the device behind it. -/
structure World where
  port : ParallelPort
  dev : Device
  deriving DecidableEq, Repr

/-- The constructor `ParallelPort::ParallelPort()`.  It does not assign
`mPortSavedRegs`; `regs` stands for whatever the two bytes hold. -/
def ParallelPort.new (regs : Nat × Nat) : ParallelPort :=
  { mPortName := "", mPortFD := 0, mPortOpened := false, mPortSavedRegs := regs, mDataOut := false }

/-- `bool ParallelPort::IsOpened()`. -/
def ParallelPort.IsOpened (w : World) : Bool := w.port.mPortOpened

/-- `bool ParallelPort::IsClosed()`. -/
def ParallelPort.IsClosed (w : World) : Bool := !w.port.mPortOpened

/-- `const std::string& ParallelPort::PortName()`. -/
def ParallelPort.PortName (w : World) : World × Outcome String :=
  if !w.port.mPortOpened then (w, Outcome.throw ParallelPort_errors.Closed)
  else (w, Outcome.ok w.port.mPortName)

/-- `const unsigned char ParallelPort::Data()`: read the data register. -/
def ParallelPort.Data (sys : Nat → Int) (w : World) : World × Outcome Nat :=
  if !w.port.mPortOpened then (w, Outcome.throw ParallelPort_errors.Closed)
  else
    let r := ioctl sys w.port.mPortFD Request.PPRDATA 0 w.dev
    if r.ret ≠ 0 then ({ w with dev := r.dev }, Outcome.throw ParallelPort_errors.Read)
    else ({ w with dev := r.dev }, Outcome.ok (r.out % 256))

/-- `void ParallelPort::Data(const unsigned char& c)`: write the data register. -/
def ParallelPort.SetData (sys : Nat → Int) (c : Nat) (w : World) : World × Outcome Unit :=
  if !w.port.mPortOpened then (w, Outcome.throw ParallelPort_errors.Closed)
  else
    let r := ioctl sys w.port.mPortFD Request.PPWDATA (c % 256) w.dev
    if r.ret ≠ 0 then ({ w with dev := r.dev }, Outcome.throw ParallelPort_errors.Write)
    else ({ w with dev := r.dev }, Outcome.ok ())

/-- `bool ParallelPort::DataOut()`. -/
def ParallelPort.DataOut (w : World) : World × Outcome Bool :=
  if !w.port.mPortOpened then (w, Outcome.throw ParallelPort_errors.Closed)
  else (w, Outcome.ok w.port.mDataOut)

/-- `void ParallelPort::DataOut(const bool Out)`. -/
def ParallelPort.SetDataOut (sys : Nat → Int) (Out : Bool) (w : World) : World × Outcome Unit :=
  if !w.port.mPortOpened then (w, Outcome.throw ParallelPort_errors.Closed)
  else
    let PortDataDir : Nat := if Out then 0 else 1
    let r := ioctl sys w.port.mPortFD Request.PPDATADIR PortDataDir w.dev
    if r.ret < 0 then ({ w with dev := r.dev }, Outcome.throw ParallelPort_errors.Perm)
    else ({ port := { w.port with mDataOut := Out }, dev := r.dev }, Outcome.ok ())

/-- `const unsigned char ParallelPort::Stat()`: read the status register. -/
def ParallelPort.Stat (sys : Nat → Int) (w : World) : World × Outcome Nat :=
  if !w.port.mPortOpened then (w, Outcome.throw ParallelPort_errors.Closed)
  else
    let r := ioctl sys w.port.mPortFD Request.PPRSTATUS 0 w.dev
    if r.ret ≠ 0 then ({ w with dev := r.dev }, Outcome.throw ParallelPort_errors.Read)
    else ({ w with dev := r.dev }, Outcome.ok (r.out % 256))

/-- `const unsigned char ParallelPort::Ctrl()`: read the control register. -/
def ParallelPort.Ctrl (sys : Nat → Int) (w : World) : World × Outcome Nat :=
  if !w.port.mPortOpened then (w, Outcome.throw ParallelPort_errors.Closed)
  else
    let r := ioctl sys w.port.mPortFD Request.PPRCONTROL 0 w.dev
    if r.ret ≠ 0 then ({ w with dev := r.dev }, Outcome.throw ParallelPort_errors.Read)
    else ({ w with dev := r.dev }, Outcome.ok (r.out % 256))

/-- `void ParallelPort::Ctrl(const unsigned char& c)`: write the control register. -/
def ParallelPort.SetCtrl (sys : Nat → Int) (c : Nat) (w : World) : World × Outcome Unit :=
  if !w.port.mPortOpened then (w, Outcome.throw ParallelPort_errors.Closed)
  else
    let r := ioctl sys w.port.mPortFD Request.PPWCONTROL (c % 256) w.dev
    if r.ret ≠ 0 then ({ w with dev := r.dev }, Outcome.throw ParallelPort_errors.Write)
    else ({ w with dev := r.dev }, Outcome.ok ())

/-- `void ParallelPort::Open(const std::string& PortName)`. -/
def ParallelPort.Open (sys : Nat → Int) (PortName : String) (w : World) : World × Outcome Unit :=
  if w.port.mPortOpened then (w, Outcome.throw ParallelPort_errors.Opened)
  else
    let o := sysOpen sys PortName w.dev
    if o.ret < 0 then
      ({ port := { w.port with mPortFD := 0 }, dev := o.dev }, Outcome.throw ParallelPort_errors.Opening)
    else
      let c := ioctl sys o.ret Request.PPCLAIM 0 o.dev
      if c.ret < 0 then
        let x := sysClose sys o.ret c.dev
        ({ port := { w.port with mPortFD := 0 }, dev := x.dev }, Outcome.throw ParallelPort_errors.Perm)
      else
        let w1 : World :=
          { port := { w.port with mPortFD := o.ret, mPortName := PortName, mPortOpened := true },
            dev := c.dev }
        andThen (ParallelPort.Data sys w1) fun w2 c0 =>
          let w2s : World :=
            { w2 with port := { w2.port with mPortSavedRegs := (c0, w2.port.mPortSavedRegs.2) } }
          andThen (ParallelPort.Ctrl sys w2s) fun w3 c1 =>
            let w3s : World :=
              { w3 with port := { w3.port with mPortSavedRegs := (w3.port.mPortSavedRegs.1, c1) } }
            let dd := ioctl sys w3s.port.mPortFD Request.PPDATADIR 0 w3s.dev
            ({ port := { w3s.port with mDataOut := true }, dev := dd.dev }, Outcome.ok ())

/-- `void ParallelPort::Close()`. -/
def ParallelPort.Close (sys : Nat → Int) (w : World) : World × Outcome Unit :=
  if !w.port.mPortOpened then (w, Outcome.throw ParallelPort_errors.Closed)
  else
    andThen (ParallelPort.SetData sys w.port.mPortSavedRegs.1 w) fun w1 _ =>
      andThen (ParallelPort.SetCtrl sys w1.port.mPortSavedRegs.2 w1) fun w2 _ =>
        let rel := ioctl sys w2.port.mPortFD Request.PPRELEASE 0 w2.dev
        if rel.ret < 0 then ({ w2 with dev := rel.dev }, Outcome.throw ParallelPort_errors.Perm)
        else
          let x := sysClose sys w2.port.mPortFD rel.dev
          if x.ret < 0 then ({ w2 with dev := x.dev }, Outcome.throw ParallelPort_errors.Closing)
          else
            ({ port := { w2.port with mPortName := "", mPortFD := 0, mPortOpened := false,
                                      mDataOut := false },
               dev := x.dev }, Outcome.ok ())

/-! ## Machine integers and the gray-code table (cnc.h) -/

/-- `#define second (1000000)`. -/
def second : Nat := 1000000

/-- `#define minute (60 * second)`. -/
def minute : Nat := 60 * second

/-- Whether a value is representable in `int` (32 bits). -/
def inInt (x : Int) : Bool := decide (-2 ^ 31 ≤ x ∧ x < 2 ^ 31)

/-- Whether a value is representable in `long` (64 bits). -/
def inLong (x : Int) : Bool := decide (-2 ^ 63 ≤ x ∧ x < 2 ^ 63)

/-- Conversion of a `long` value to `int` (the low 32 bits, read as signed). -/
def toInt32 (x : Int) : Int := (x + 2 ^ 31) % 2 ^ 32 - 2 ^ 31

/-- The operator `~` on an `int` that holds the non-negative value `x`, given as
the 32-bit pattern of the result. -/
def intNot (x : Nat) : Nat := 2 ^ 32 - 1 - x

/-- `const unsigned graycode2[4] = {0, 1, 3, 2};` -/
def graycode2 : List Nat := [0, 1, 3, 2]

/-- The subscript expression `graycode2[i]`: defined only for `0 ≤ i < 4`. -/
def graycode2At (i : Int) : Option Nat :=
  if i < 0 then none else graycode2[i.toNat]?

/-- The table index computed in `Stepper::Step` once `_pos` has been updated:
`_pos % 4` when `sign > 0`, `3 - (3 - _pos) % 4` otherwise.  The operator `%` of C++
truncates towards zero, which is `Int.tmod`. -/
def phaseIndex (sign : Int) (pos : Int) : Int :=
  if sign > 0 then Int.tmod pos 4 else 3 - Int.tmod (3 - pos) 4

/-- Pairs an actuator with the result of a call made through its `_port`. -/
def onPort {σ α : Type} (s : σ) (r : World × Outcome α) : (σ × World) × Outcome α :=
  ((s, r.1), r.2)

/-! ## Onoff (cnc.h, cnc.cpp)

The pointer field `_port` is not a field of the Lean structures: every
operation receives the `World` its `_port` points to. -/

/-- The fields of `class Onoff` (with those inherited from `oDevice`). -/
structure Onoff where
  Name : String
  _offset : Nat
  _state : Bool
  _delay : Nat
  _speed : ℚ
  deriving DecidableEq

/-- `Onoff::Onoff()`.  It does not assign `_speed`; `speed0` stands for its content. -/
def Onoff.new (speed0 : ℚ) : Onoff :=
  { Name := "", _offset := 0x10, _state := false, _delay := 0, _speed := speed0 }

/-- `void Onoff::Nudge(bool state)`.  The register is read, `_state` is assigned,
the new byte is written.  `1 << _offset` is an `int` shift: undefined from 31 on. -/
def Onoff.Nudge (sys : Nat → Int) (state : Bool) (d : Onoff) (w : World) :
    (Onoff × World) × Outcome Unit :=
  if 31 ≤ d._offset then ((d, w), Outcome.undefined)
  else
    andThen (onPort d (ParallelPort.Data sys w)) fun st cur =>
      let d1 : Onoff := { st.1 with _state := state }
      onPort d1
        (ParallelPort.SetData sys
          ((cur &&& intNot (1 <<< d._offset)) ||| ((if state then 1 else 0) <<< d._offset)) st.2)

/-- `bool Onoff::set(bool state)`. -/
def Onoff.set (sys : Nat → Int) (state : Bool) (d : Onoff) (w : World) :
    (Onoff × World) × Outcome Bool :=
  andThen (Onoff.Nudge sys state d w) fun st _ =>
    ((st.1, { st.2 with dev := usleep st.1._delay st.2.dev }), Outcome.ok st.1._state)

/-- `bool Onoff::get()`. -/
def Onoff.get (d : Onoff) : Bool := d._state

/-- `unsigned long Onoff::setDelay(unsigned long delay)`: `_speed = minute / delay`
is an `unsigned long` division. -/
def Onoff.setDelay (delay : Nat) (d : Onoff) : Onoff × Outcome Nat :=
  if delay = 0 then (d, Outcome.undefined)
  else ({ d with _speed := ((minute / delay : Nat) : ℚ), _delay := delay }, Outcome.ok delay)

/-- `unsigned long Onoff::getDelay()`. -/
def Onoff.getDelay (d : Onoff) : Nat := d._delay

/-- `long double Onoff::setSpeed(long double speed)`.  The `long double` quotient is
taken as the exact rational one; its conversion to `unsigned long` truncates and is
undefined outside the range of the type. -/
def Onoff.setSpeed (speed : ℚ) (d : Onoff) : Onoff × Outcome ℚ :=
  if speed > 0 then
    let q : ℚ := (minute : ℚ) / speed
    if 2 ^ 64 ≤ ⌊q⌋ then ({ d with _speed := speed }, Outcome.undefined)
    else ({ d with _speed := speed, _delay := ⌊q⌋.toNat }, Outcome.ok speed)
  else ({ d with _speed := 0, _delay := 0 }, Outcome.ok 0)

/-- `long double Onoff::getSpeed()`. -/
def Onoff.getSpeed (d : Onoff) : ℚ := d._speed

/-! ## Stepper (cnc.h, cnc.cpp) -/

/-- The fields of `class Stepper` (with those inherited from `oDevice`);
`_state` is the bit-field `unsigned _state : 2`. -/
structure Stepper where
  Name : String
  _offset : Nat
  _steps : Nat
  _delay : Nat
  _speed : ℚ
  _state : Nat
  _pos : Int
  deriving DecidableEq

/-- `Stepper::Stepper()`.  It does not assign `_speed`; `speed0` stands for its content. -/
def Stepper.new (speed0 : ℚ) : Stepper :=
  { Name := "", _offset := 0x10, _steps := 0, _delay := 0, _speed := speed0, _state := 0, _pos := 0 }

/-- `Stepper::Stepper(unsigned steps, unsigned short offset, ParallelPort * port)`. -/
def Stepper.mk3 (speed0 : ℚ) (steps : Nat) (offset : Nat) : Stepper :=
  { Name := "",
    _offset := if offset > 6 then 0x10 else offset,
    _steps := if steps < 4 ∨ steps % 4 ≠ 0 then 4 else steps,
    _delay := 0, _speed := speed0, _state := 0, _pos := 0 }

/-- `long Stepper::setPos(long pos)`. -/
def Stepper.setPos (pos : Int) (s : Stepper) : Stepper × Int :=
  ({ s with _pos := pos }, pos)

/-- `long Stepper::getPos()`. -/
def Stepper.getPos (s : Stepper) : Int := s._pos

/-- `unsigned long Stepper::setDelay(unsigned long delay)`:
`_speed = minute / delay * _steps` is evaluated left to right in `unsigned long`. -/
def Stepper.setDelay (delay : Nat) (s : Stepper) : Stepper × Outcome Nat :=
  if delay = 0 then (s, Outcome.undefined)
  else
    ({ s with _speed := ((minute / delay * s._steps % 2 ^ 64 : Nat) : ℚ), _delay := delay },
      Outcome.ok delay)

/-- `unsigned long Stepper::getDelay()`. -/
def Stepper.getDelay (s : Stepper) : Nat := s._delay

/-- `long double Stepper::setSpeed(long double speed)`.  The `long double` quotient is
taken as the exact rational one (an infinite one when `_steps` is 0); its conversion to
`unsigned long` truncates and is undefined outside the range of the type. -/
def Stepper.setSpeed (speed : ℚ) (s : Stepper) : Stepper × Outcome ℚ :=
  if speed > 0 then
    if s._steps = 0 then ({ s with _speed := speed }, Outcome.undefined)
    else
      let q : ℚ := (minute : ℚ) / (speed * (s._steps : ℚ))
      if 2 ^ 64 ≤ ⌊q⌋ then ({ s with _speed := speed }, Outcome.undefined)
      else ({ s with _speed := speed, _delay := ⌊q⌋.toNat }, Outcome.ok speed)
  else ({ s with _speed := 0, _delay := 0 }, Outcome.ok 0)

/-- `long double Stepper::getSpeed()`. -/
def Stepper.getSpeed (s : Stepper) : ℚ := s._speed

/-- `void Stepper::Nudge()`.  `3 << _offset` is an `int` shift: undefined from 30 on. -/
def Stepper.Nudge (sys : Nat → Int) (s : Stepper) (w : World) : (Stepper × World) × Outcome Unit :=
  if 30 ≤ s._offset then ((s, w), Outcome.undefined)
  else
    andThen (onPort s (ParallelPort.Data sys w)) fun st cur =>
      onPort st.1
        (ParallelPort.SetData sys
          ((cur &&& intNot (3 <<< s._offset)) ||| (s._state <<< s._offset)) st.2)

/-- `void Stepper::Push()`. -/
def Stepper.Push (sys : Nat → Int) (s : Stepper) (w : World) : (Stepper × World) × Outcome Unit :=
  andThen (Stepper.Nudge sys s w) fun st _ =>
    ((st.1, { st.2 with dev := usleep st.1._delay st.2.dev }), Outcome.ok ())

/-- The loop `while(steps-- > 0){ ... }` of `Stepper::Step`, for `k` remaining
iterations. -/
def Stepper.stepLoop (sys : Nat → Int) (sign : Int) :
    Nat → Stepper → World → (Stepper × World) × Outcome Unit
  | 0, s, w => ((s, w), Outcome.ok ())
  | k + 1, s, w =>
    if !inLong (s._pos + sign) then ((s, w), Outcome.undefined)
    else
      let s1 : Stepper := { s with _pos := s._pos + sign }
      if !decide (sign > 0) && !inLong (3 - s1._pos) then ((s1, w), Outcome.undefined)
      else
        match graycode2At (phaseIndex sign s1._pos) with
        | none => ((s1, w), Outcome.undefined)
        | some g =>
          andThen (Stepper.Push sys { s1 with _state := g % 4 } w) fun st _ =>
            Stepper.stepLoop sys sign k st.1 st.2

/-- `void Stepper::Step(int steps)`. -/
def Stepper.Step (sys : Nat → Int) (steps : Int) (s : Stepper) (w : World) :
    (Stepper × World) × Outcome Unit :=
  let sign : Int := if steps < 0 then -1 else 1
  if !inInt (steps * sign) then ((s, w), Outcome.undefined)
  else Stepper.stepLoop sys sign (steps * sign).toNat s w

/-- `void Stepper::goTo(long pos)`: the `long` difference is converted to the `int`
parameter of `Step`. -/
def Stepper.goTo (sys : Nat → Int) (pos : Int) (s : Stepper) (w : World) :
    (Stepper × World) × Outcome Unit :=
  if !inLong (pos - s._pos) then ((s, w), Outcome.undefined)
  else Stepper.Step sys (toInt32 (pos - s._pos)) s w

/-! ## Machine (cnc.h, cnc.cpp)

`Machine::setPort` and `operator>>` give every actuator the port of the machine, so
one `World` serves the machine and its actuators. -/

/-- The fields of `class Machine`. -/
structure Machine where
  Name : String
  steppers : List Stepper
  onoffs : List Onoff
  deriving DecidableEq

/-- The first loop of `Machine::Zero`: `setPos(0)` then `Push()` on each stepper. -/
def Machine.zeroSteppers (sys : Nat → Int) :
    List Stepper → World → (List Stepper × World) × Outcome Unit
  | [], w => (([], w), Outcome.ok ())
  | s :: rest, w =>
    let r := Stepper.Push sys (Stepper.setPos 0 s).1 w
    match r.2 with
    | Outcome.ok _ =>
      let t := Machine.zeroSteppers sys rest r.1.2
      ((r.1.1 :: t.1.1, t.1.2), t.2)
    | Outcome.throw e => ((r.1.1 :: rest, r.1.2), Outcome.throw e)
    | Outcome.undefined => ((r.1.1 :: rest, r.1.2), Outcome.undefined)

/-- The second loop of `Machine::Zero`: `set(false)` on each on/off device. -/
def Machine.zeroOnoffs (sys : Nat → Int) :
    List Onoff → World → (List Onoff × World) × Outcome Unit
  | [], w => (([], w), Outcome.ok ())
  | d :: rest, w =>
    let r := Onoff.set sys false d w
    match r.2 with
    | Outcome.ok _ =>
      let t := Machine.zeroOnoffs sys rest r.1.2
      ((r.1.1 :: t.1.1, t.1.2), t.2)
    | Outcome.throw e => ((r.1.1 :: rest, r.1.2), Outcome.throw e)
    | Outcome.undefined => ((r.1.1 :: rest, r.1.2), Outcome.undefined)

/-- `void Machine::Zero()`. -/
def Machine.Zero (sys : Nat → Int) (m : Machine) (w : World) : (Machine × World) × Outcome Unit :=
  andThen (onPort m (ParallelPort.SetData sys 0 w)) fun st _ =>
    let a := Machine.zeroSteppers sys st.1.steppers st.2
    let m1 : Machine := { st.1 with steppers := a.1.1 }
    match a.2 with
    | Outcome.ok _ =>
      let b := Machine.zeroOnoffs sys m1.onoffs a.1.2
      (({ m1 with onoffs := b.1.1 }, b.1.2), b.2)
    | Outcome.throw e => ((m1, a.1.2), Outcome.throw e)
    | Outcome.undefined => ((m1, a.1.2), Outcome.undefined)

/-! ## Reading the system-call trace -/

/-- The bytes passed to the data-register writes (`PPWDATA`) of a trace, in order. -/
def dataWrites : List Event → List Nat
  | [] => []
  | Event.ioctl _ Request.PPWDATA arg _ :: rest => arg :: dataWrites rest
  | _ :: rest => dataWrites rest

/-- The events a call added to the trace: those of `after` beyond the length of `before`. -/
def newEvents (before after : World) : List Event :=
  after.dev.trace.drop before.dev.trace.length

/-- A script under which every system call succeeds with code 0. -/
def sysOk : Nat → Int := fun _ => 0

/-- A closed handle on a device whose registers hold `dat`, `ctl`, `sta`. -/
def closedWorld (dat ctl sta : Fin 256) : World :=
  { port := ParallelPort.new (0, 0),
    dev := { data := dat, ctrl := ctl, stat := sta, dirIn := false, claimed := false,
             fdOpen := false, trace := [] } }

/-- An open handle (descriptor 3) on a device whose data register holds `dat`. -/
def openWorld (dat : Fin 256) : World :=
  { port := { mPortName := "/dev/parport0", mPortFD := 3, mPortOpened := true,
              mPortSavedRegs := (0, 0), mDataOut := true },
    dev := { data := dat, ctrl := 0, stat := 0, dirIn := false, claimed := true,
             fdOpen := true, trace := [] } }

/-- A stepper with 4 steps per unit at bit offset `off`, position `pos`, phase `ph`. -/
def stepperAt (off : Nat) (pos : Int) (ph : Nat) : Stepper :=
  { Name := "X", _offset := off, _steps := 4, _delay := 0, _speed := 0, _state := ph, _pos := pos }

/-! ## Callers and sample inputs -/

/-- A register write a caller can issue between `Open` and `Close`. -/
inductive PortWrite
  | data (c : Nat)
  | ctrl (c : Nat)
  deriving DecidableEq, Repr

/-- A caller issuing a sequence of register writes; an exception ends the sequence. -/
def runWrites (sys : Nat → Int) : List PortWrite → World → World × Outcome Unit
  | [], w => (w, Outcome.ok ())
  | PortWrite.data c :: rest, w =>
    andThen (ParallelPort.SetData sys c w) fun w1 _ => runWrites sys rest w1
  | PortWrite.ctrl c :: rest, w =>
    andThen (ParallelPort.SetCtrl sys c w) fun w1 _ => runWrites sys rest w1

/-- A script for a device that opens with descriptor 3 and then succeeds throughout. -/
def sysFd3 : Nat → Int := fun k => if k = 0 then 3 else 0

/-- A script for a device that opens with descriptor 3 and then refuses the claim. -/
def sysNoClaim : Nat → Int := fun k => if k = 0 then 3 else if k = 1 then -1 else 0

/-- A machine with one stepper on bits 0 and 1, at position 7 with the phase `Step`
assigned there, and one on/off device on bit 2 that is on. -/
def machineAt7 : Machine :=
  { Name := "m",
    steppers := [stepperAt 0 7 2],
    onoffs := [{ Name := "o", _offset := 2, _state := true, _delay := 0, _speed := 0 }] }

/-- A script for a device that opens with descriptor 3, grants the claim and then fails
the first register read. -/
def sysNoRead : Nat → Int := fun k => if k = 0 then 3 else if k = 2 then -1 else 0

/-- A call a user of a `Stepper` can make on it. -/
inductive StepperOp
  | setPos (pos : Int)
  | setDelay (delay : Nat)
  | setSpeed (speed : ℚ)
  | Step (steps : Int)
  | goTo (pos : Int)

/-- Forgets the value a call returned. -/
def Outcome.discard {α : Type} : Outcome α → Outcome Unit
  | Outcome.ok _ => Outcome.ok ()
  | Outcome.throw e => Outcome.throw e
  | Outcome.undefined => Outcome.undefined

/-- One call of `StepperOp` on a stepper, its return value dropped. -/
def StepperOp.run (sys : Nat → Int) (op : StepperOp) (s : Stepper) (w : World) :
    (Stepper × World) × Outcome Unit :=
  match op with
  | StepperOp.setPos pos => (((Stepper.setPos pos s).1, w), Outcome.ok ())
  | StepperOp.setDelay delay => (((Stepper.setDelay delay s).1, w), (Stepper.setDelay delay s).2.discard)
  | StepperOp.setSpeed speed => (((Stepper.setSpeed speed s).1, w), (Stepper.setSpeed speed s).2.discard)
  | StepperOp.Step steps => Stepper.Step sys steps s w
  | StepperOp.goTo pos => Stepper.goTo sys pos s w

/-- A caller making a sequence of calls on one stepper; an exception or undefined
behaviour ends the sequence. -/
def runStepperOps (sys : Nat → Int) :
    List StepperOp → Stepper → World → (Stepper × World) × Outcome Unit
  | [], s, w => ((s, w), Outcome.ok ())
  | op :: rest, s, w =>
    andThen (StepperOp.run sys op s w) fun st _ => runStepperOps sys rest st.1 st.2

/-- A script for a device on which the third system call (the release of the claim, when
`Close` is the first operation) fails and every other call succeeds. -/
def sysNoRelease : Nat → Int := fun k => if k = 2 then -1 else 0

/-! ## Reading a configuration line (cnc.cpp)

The stream library is not part of the repository; `IStream` represents what formatted
extraction observes of a `std::istream`. -/

/-- A `std::istream` during formatted extraction, as far as `operator>>` observes it: the
whitespace-separated tokens not yet read, and whether `failbit` is set. -/
structure IStream where
  tokens : List String
  failed : Bool
  deriving DecidableEq, Repr

/-- Extraction `in >> s` into a `std::string`: the next token; on a failed or exhausted
stream the string keeps its value and `failbit` is set. -/
def IStream.getString (i : IStream) (old : String) : IStream × String :=
  if i.failed then (i, old)
  else
    match i.tokens with
    | [] => ({ i with failed := true }, old)
    | t :: rest => ({ i with tokens := rest }, t)

/-- Extraction `in >> n` into an unsigned integer type whose largest value is `max`: the
leading decimal digits of the next token are converted and any remaining characters stay
in the stream.  With no digit, or a value above `max`, `failbit` is set and the target
keeps its value.  A leading sign is not modelled: such a token counts as having no digit. -/
def IStream.getUnsigned (max : Nat) (i : IStream) (old : Nat) : IStream × Nat :=
  if i.failed then (i, old)
  else
    match i.tokens with
    | [] => ({ i with failed := true }, old)
    | t :: rest =>
      let ds := t.toList.takeWhile Char.isDigit
      let tl := t.toList.dropWhile Char.isDigit
      let rest1 := if tl = [] then rest else String.mk tl :: rest
      if ds = [] then ({ i with failed := true }, old)
      else
        let n := ds.foldl (fun a c => 10 * a + (c.toNat - 48)) 0
        if n > max then ({ tokens := rest1, failed := true }, old)
        else ({ tokens := rest1, failed := false }, n)

/-- The loop of `operator>>` over `d.Name`: a doubled underscore becomes one underscore,
any other underscore becomes a space. -/
def fixName : List Char → List Char
  | [] => []
  | '_' :: '_' :: rest => '_' :: fixName rest
  | '_' :: rest => ' ' :: fixName rest
  | c :: rest => c :: fixName rest

/-- `istream& operator >> (std::istream& in, Stepper& d)`: reads `d.Name`, `d._offset`
(an `unsigned short`), `d._steps` (an `unsigned`) and `d.Unit`, then rewrites the
underscores of the name.  `Unit` is not a member that `class Stepper` declares in cnc.h
and no operation reads it: its token is extracted and not kept. -/
def Stepper.extract (i : IStream) (d : Stepper) : IStream × Stepper :=
  let a := i.getString d.Name
  let b := a.1.getUnsigned 65535 d._offset
  let c := b.1.getUnsigned 4294967295 d._steps
  let u := c.1.getString ""
  (u.1, { d with Name := String.mk (fixName a.2.toList), _offset := b.2, _steps := c.2 })

/-- The fields of the configuration line `Stepper X_axis 0 6 mm` left in the stream once
`operator>>` of `Machine` has read the keyword `Stepper`. -/
def lineSteps6 : IStream := { tokens := ["X_axis", "0", "6", "mm"], failed := false }

/-- The fields of the configuration line `Stepper X_axis 0 0 mm` left in the stream once
`operator>>` of `Machine` has read the keyword `Stepper`. -/
def lineSteps0 : IStream := { tokens := ["X_axis", "0", "0", "mm"], failed := false }

/-! ## ParallelPort: symbolic evaluation of `Open` and `Close` -/

theorem Data_port (sys : Nat → Int) (w : World) : (ParallelPort.Data sys w).1.port = w.port := by
  unfold ParallelPort.Data
  dsimp only
  split_ifs <;> rfl

theorem SetData_port (sys : Nat → Int) (c : Nat) (w : World) :
    (ParallelPort.SetData sys c w).1.port = w.port := by
  unfold ParallelPort.SetData
  dsimp only
  split_ifs <;> rfl

theorem SetCtrl_port (sys : Nat → Int) (c : Nat) (w : World) :
    (ParallelPort.SetCtrl sys c w).1.port = w.port := by
  unfold ParallelPort.SetCtrl
  dsimp only
  split_ifs <;> rfl

theorem Open_on_open (sys : Nat → Int) (name : String) (w : World)
    (h : w.port.mPortOpened = true) :
    ParallelPort.Open sys name w = (w, Outcome.throw ParallelPort_errors.Opened) := by
  unfold ParallelPort.Open
  simp [h]

theorem Open_open_fails (sys : Nat → Int) (name : String) (w : World)
    (h : w.port.mPortOpened = false) (h0 : sys w.dev.trace.length < 0) :
    ParallelPort.Open sys name w =
      ({ port := { w.port with mPortFD := 0 },
         dev := { w.dev with trace := w.dev.trace ++ [Event.sysOpen name (sys w.dev.trace.length)] } },
        Outcome.throw ParallelPort_errors.Opening) := by
  simp [ParallelPort.Open, sysOpen, h, h0]

theorem Open_claim_fails (sys : Nat → Int) (name : String) (w : World)
    (h : w.port.mPortOpened = false) (h0 : 0 ≤ sys w.dev.trace.length)
    (h1 : sys (w.dev.trace.length + 1) < 0) :
    ParallelPort.Open sys name w =
      ({ port := { w.port with mPortFD := 0 },
         dev := { w.dev with
           fdOpen := if sys (w.dev.trace.length + 2) < 0 then true else false
           trace := w.dev.trace ++
             [Event.sysOpen name (sys w.dev.trace.length),
              Event.ioctl (sys w.dev.trace.length) Request.PPCLAIM 0 (sys (w.dev.trace.length + 1)),
              Event.sysClose (sys w.dev.trace.length) (sys (w.dev.trace.length + 2))] } },
        Outcome.throw ParallelPort_errors.Perm) := by
  have h0' : ¬ sys w.dev.trace.length < 0 := not_lt.mpr h0
  simp [ParallelPort.Open, sysOpen, ioctl, sysClose, h, h0', h1]

theorem Open_read_data_fails (sys : Nat → Int) (name : String) (w : World)
    (h : w.port.mPortOpened = false) (h0 : 0 ≤ sys w.dev.trace.length)
    (h1 : 0 ≤ sys (w.dev.trace.length + 1)) (h2 : sys (w.dev.trace.length + 2) ≠ 0) :
    ParallelPort.Open sys name w =
        ({ port := { w.port with mPortFD := sys w.dev.trace.length, mPortName := name, mPortOpened := true },
           dev := { w.dev with
             fdOpen := true
             claimed := true
             trace := w.dev.trace ++
               [Event.sysOpen name (sys w.dev.trace.length),
                Event.ioctl (sys w.dev.trace.length) Request.PPCLAIM 0 (sys (w.dev.trace.length + 1)),
                Event.ioctl (sys w.dev.trace.length) Request.PPRDATA 0 (sys (w.dev.trace.length + 2))] } },
        Outcome.throw ParallelPort_errors.Read) := by
  have h0' : ¬ sys w.dev.trace.length < 0 := not_lt.mpr h0
  have h1' : ¬ sys (w.dev.trace.length + 1) < 0 := not_lt.mpr h1
  simp [ParallelPort.Open, sysOpen, ioctl, sysClose, andThen, ParallelPort.Data, ParallelPort.Ctrl, h, h0', h1', h2, ioctlEffect]

theorem Open_read_ctrl_fails (sys : Nat → Int) (name : String) (w : World)
    (h : w.port.mPortOpened = false) (h0 : 0 ≤ sys w.dev.trace.length)
    (h1 : 0 ≤ sys (w.dev.trace.length + 1)) (h2 : sys (w.dev.trace.length + 2) = 0)
    (h3 : sys (w.dev.trace.length + 3) ≠ 0) :
    ParallelPort.Open sys name w =
        ({ port := { w.port with mPortFD := sys w.dev.trace.length, mPortName := name, mPortOpened := true,
                                 mPortSavedRegs := (w.dev.data.val, w.port.mPortSavedRegs.2) },
           dev := { w.dev with
             fdOpen := true
             claimed := true
             trace := w.dev.trace ++
               [Event.sysOpen name (sys w.dev.trace.length),
                Event.ioctl (sys w.dev.trace.length) Request.PPCLAIM 0 (sys (w.dev.trace.length + 1)),
                Event.ioctl (sys w.dev.trace.length) Request.PPRDATA 0 (sys (w.dev.trace.length + 2)),
                Event.ioctl (sys w.dev.trace.length) Request.PPRCONTROL 0 (sys (w.dev.trace.length + 3))] } },
        Outcome.throw ParallelPort_errors.Read) := by
  have h0' : ¬ sys w.dev.trace.length < 0 := not_lt.mpr h0
  have h1' : ¬ sys (w.dev.trace.length + 1) < 0 := not_lt.mpr h1
  have hb : (w.dev.data : Nat) % 256 = w.dev.data := Nat.mod_eq_of_lt w.dev.data.isLt
  simp [ParallelPort.Open, sysOpen, ioctl, sysClose, andThen, ParallelPort.Data, ParallelPort.Ctrl, h, h0', h1', h2, h3, ioctlEffect, ioctlOut, hb]

theorem Open_succeeds (sys : Nat → Int) (name : String) (w : World)
    (h : w.port.mPortOpened = false) (h0 : 0 ≤ sys w.dev.trace.length)
    (h1 : 0 ≤ sys (w.dev.trace.length + 1)) (h2 : sys (w.dev.trace.length + 2) = 0)
    (h3 : sys (w.dev.trace.length + 3) = 0) :
    ParallelPort.Open sys name w =
        ({ port := { mPortFD := sys w.dev.trace.length, mPortName := name, mPortOpened := true,
                     mPortSavedRegs := (w.dev.data.val, w.dev.ctrl.val), mDataOut := true },
           dev := { w.dev with
             fdOpen := true
             claimed := true
             dirIn := if sys (w.dev.trace.length + 4) < 0 then w.dev.dirIn else false
             trace := w.dev.trace ++
               [Event.sysOpen name (sys w.dev.trace.length),
                Event.ioctl (sys w.dev.trace.length) Request.PPCLAIM 0 (sys (w.dev.trace.length + 1)),
                Event.ioctl (sys w.dev.trace.length) Request.PPRDATA 0 (sys (w.dev.trace.length + 2)),
                Event.ioctl (sys w.dev.trace.length) Request.PPRCONTROL 0 (sys (w.dev.trace.length + 3)),
                Event.ioctl (sys w.dev.trace.length) Request.PPDATADIR 0 (sys (w.dev.trace.length + 4))] } },
        Outcome.ok ()) := by
  have h0' : ¬ sys w.dev.trace.length < 0 := not_lt.mpr h0
  have h1' : ¬ sys (w.dev.trace.length + 1) < 0 := not_lt.mpr h1
  have hb : (w.dev.data : Nat) % 256 = w.dev.data := Nat.mod_eq_of_lt w.dev.data.isLt
  have hc : (w.dev.ctrl : Nat) % 256 = w.dev.ctrl := Nat.mod_eq_of_lt w.dev.ctrl.isLt
  simp [ParallelPort.Open, sysOpen, ioctl, sysClose, andThen, ParallelPort.Data, ParallelPort.Ctrl, h, h0', h1', h2, h3, ioctlEffect, ioctlOut, hb, hc]
  split_ifs <;> simp_all

/-- On a closed handle `Open` returns normally exactly when `open` and the claim return a
non-negative code and the two register reads return 0. -/
theorem Open_ok_iff (sys : Nat → Int) (name : String) (w : World)
    (h : w.port.mPortOpened = false) :
    (ParallelPort.Open sys name w).2 = Outcome.ok () ↔
      0 ≤ sys w.dev.trace.length ∧ 0 ≤ sys (w.dev.trace.length + 1) ∧
      sys (w.dev.trace.length + 2) = 0 ∧ sys (w.dev.trace.length + 3) = 0 := by
  by_cases h0 : 0 ≤ sys w.dev.trace.length
  · by_cases h1 : 0 ≤ sys (w.dev.trace.length + 1)
    · by_cases h2 : sys (w.dev.trace.length + 2) = 0
      · by_cases h3 : sys (w.dev.trace.length + 3) = 0
        · rw [Open_succeeds sys name w h h0 h1 h2 h3]; simp [h0, h1, h2, h3]
        · rw [Open_read_ctrl_fails sys name w h h0 h1 h2 h3]; simp [h3]
      · rw [Open_read_data_fails sys name w h h0 h1 h2]; simp [h2]
    · rw [Open_claim_fails sys name w h h0 (not_le.mp h1)]; simp [h1]
  · rw [Open_open_fails sys name w h (not_le.mp h0)]; simp [h0]

theorem andThen_port {α β : Type} (r : World × Outcome α) (k : World → α → World × Outcome β)
    (p : ParallelPort) (hr : r.1.port = p) (hk : ∀ w a, w.port = p → (k w a).1.port = p) :
    (andThen r k).1.port = p := by
  unfold andThen
  split
  · exact hk _ _ hr
  · exact hr
  · exact hr

theorem runWrites_port (sys : Nat → Int) (ops : List PortWrite) :
    ∀ w : World, (runWrites sys ops w).1.port = w.port := by
  induction ops with
  | nil => intro w; rfl
  | cons op rest ih =>
    intro w
    cases op with
    | data c =>
      exact andThen_port _ _ _ (SetData_port sys c w) (fun w1 _ h1 => (ih w1).trans h1)
    | ctrl c =>
      exact andThen_port _ _ _ (SetCtrl_port sys c w) (fun w1 _ h1 => (ih w1).trans h1)

theorem Close_write_data_fails (sys : Nat → Int) (w : World)
    (h : w.port.mPortOpened = true) (h0 : sys w.dev.trace.length ≠ 0) :
    (ParallelPort.Close sys w).1.port = w.port ∧
    (ParallelPort.Close sys w).2 = Outcome.throw ParallelPort_errors.Write := by
  simp [ParallelPort.Close, ParallelPort.SetData, andThen, ioctl, h, h0]

theorem Close_write_ctrl_fails (sys : Nat → Int) (w : World)
    (h : w.port.mPortOpened = true) (h0 : sys w.dev.trace.length = 0)
    (h1 : sys (w.dev.trace.length + 1) ≠ 0) :
    (ParallelPort.Close sys w).1.port = w.port ∧
    (ParallelPort.Close sys w).2 = Outcome.throw ParallelPort_errors.Write := by
  simp [ParallelPort.Close, ParallelPort.SetData, ParallelPort.SetCtrl, andThen, ioctl, h, h0, h1]

theorem Close_release_fails (sys : Nat → Int) (w : World)
    (h : w.port.mPortOpened = true) (h0 : sys w.dev.trace.length = 0)
    (h1 : sys (w.dev.trace.length + 1) = 0) (h2 : sys (w.dev.trace.length + 2) < 0) :
    (ParallelPort.Close sys w).1.port = w.port ∧
    (ParallelPort.Close sys w).2 = Outcome.throw ParallelPort_errors.Perm := by
  simp [ParallelPort.Close, ParallelPort.SetData, ParallelPort.SetCtrl, andThen, ioctl, h, h0, h1, h2]

theorem Close_close_fails (sys : Nat → Int) (w : World)
    (h : w.port.mPortOpened = true) (h0 : sys w.dev.trace.length = 0)
    (h1 : sys (w.dev.trace.length + 1) = 0) (h2 : 0 ≤ sys (w.dev.trace.length + 2))
    (h3 : sys (w.dev.trace.length + 3) < 0) :
    (ParallelPort.Close sys w).1.port = w.port ∧
    (ParallelPort.Close sys w).2 = Outcome.throw ParallelPort_errors.Closing := by
  have h2' : ¬ sys (w.dev.trace.length + 2) < 0 := not_lt.mpr h2
  simp [ParallelPort.Close, ParallelPort.SetData, ParallelPort.SetCtrl, andThen, ioctl, sysClose,
    h, h0, h1, h2', h3]

theorem Close_succeeds (sys : Nat → Int) (w : World)
    (h : w.port.mPortOpened = true) (h0 : sys w.dev.trace.length = 0)
    (h1 : sys (w.dev.trace.length + 1) = 0) (h2 : 0 ≤ sys (w.dev.trace.length + 2))
    (h3 : 0 ≤ sys (w.dev.trace.length + 3)) :
    ParallelPort.Close sys w =
      ({ port := { mPortName := "", mPortFD := 0, mPortOpened := false,
                   mPortSavedRegs := w.port.mPortSavedRegs, mDataOut := false },
         dev := { w.dev with
           data := byte w.port.mPortSavedRegs.1
           ctrl := byte w.port.mPortSavedRegs.2
           claimed := false
           fdOpen := false
           trace := w.dev.trace ++
             [Event.ioctl w.port.mPortFD Request.PPWDATA (w.port.mPortSavedRegs.1 % 256) 0,
              Event.ioctl w.port.mPortFD Request.PPWCONTROL (w.port.mPortSavedRegs.2 % 256) 0,
              Event.ioctl w.port.mPortFD Request.PPRELEASE 0 (sys (w.dev.trace.length + 2)),
              Event.sysClose w.port.mPortFD (sys (w.dev.trace.length + 3))] } },
        Outcome.ok ()) := by
  have h2' : ¬ sys (w.dev.trace.length + 2) < 0 := not_lt.mpr h2
  have h3' : ¬ sys (w.dev.trace.length + 3) < 0 := not_lt.mpr h3
  simp [ParallelPort.Close, ParallelPort.SetData, ParallelPort.SetCtrl, andThen, ioctl, sysClose,
    ioctlEffect, h, h0, h1, h2', h3', byte]

theorem Close_ok_iff (sys : Nat → Int) (w : World) (h : w.port.mPortOpened = true) :
    (ParallelPort.Close sys w).2 = Outcome.ok () ↔
      sys w.dev.trace.length = 0 ∧ sys (w.dev.trace.length + 1) = 0 ∧
      0 ≤ sys (w.dev.trace.length + 2) ∧ 0 ≤ sys (w.dev.trace.length + 3) := by
  by_cases h0 : sys w.dev.trace.length = 0
  · by_cases h1 : sys (w.dev.trace.length + 1) = 0
    · by_cases h2 : 0 ≤ sys (w.dev.trace.length + 2)
      · by_cases h3 : 0 ≤ sys (w.dev.trace.length + 3)
        · rw [Close_succeeds sys w h h0 h1 h2 h3]; simp [h0, h1, h2, h3]
        · rw [(Close_close_fails sys w h h0 h1 h2 (not_le.mp h3)).2]; simp [h3]
      · rw [(Close_release_fails sys w h h0 h1 (not_le.mp h2)).2]; simp [h2]
    · rw [(Close_write_ctrl_fails sys w h h0 h1).2]; simp [h1]
  · rw [(Close_write_data_fails sys w h h0).2]; simp [h0]

theorem byte_val (x : Fin 256) : byte x.val = x := by
  apply Fin.ext
  simp [byte, Nat.mod_eq_of_lt x.isLt]

/-! ## Stepper: forward stepping -/

set_option maxRecDepth 100000 in
theorem phase_bits_at_offset_zero :
    ∀ c < 256, ∀ g < 4, ((c &&& intNot (3 <<< 0)) ||| (g <<< 0)) % 256 % 4 = g := by
  decide

theorem graycode2_getD_lt (j : Nat) : graycode2.getD j 0 < 4 := by
  unfold graycode2
  match j with
  | 0 => decide
  | 1 => decide
  | 2 => decide
  | 3 => decide
  | n + 4 => simp

theorem graycode2At_forward (p : Nat) :
    graycode2At (phaseIndex 1 (p : Int)) = some (graycode2.getD (p % 4) 0) := by
  have h1 : phaseIndex 1 (p : Int) = ((p % 4 : Nat) : Int) := by
    simp [phaseIndex]
    rfl
  rw [h1]
  have h4 : p % 4 < 4 := Nat.mod_lt _ (by decide)
  generalize p % 4 = j at h4
  interval_cases j <;> rfl

theorem Nudge_ok (sys : Nat → Int) (hsys : ∀ k, sys k = 0) (s : Stepper) (w : World)
    (hopen : w.port.mPortOpened = true) (hoff : s._offset < 30) :
    Stepper.Nudge sys s w =
      ((s, { w with dev := { w.dev with
          data := byte ((w.dev.data.val &&& intNot (3 <<< s._offset)) ||| (s._state <<< s._offset))
          trace := w.dev.trace ++
            [Event.ioctl w.port.mPortFD Request.PPRDATA 0 0,
             Event.ioctl w.port.mPortFD Request.PPWDATA
               (((w.dev.data.val &&& intNot (3 <<< s._offset)) ||| (s._state <<< s._offset)) % 256) 0] } }),
        Outcome.ok ()) := by
  have hd : (w.dev.data : Nat) % 256 = w.dev.data := Nat.mod_eq_of_lt w.dev.data.isLt
  have hn : ¬ 30 ≤ s._offset := not_le.mpr hoff
  simp [Stepper.Nudge, andThen, onPort, ParallelPort.Data, ParallelPort.SetData, ioctl, ioctlEffect,
    ioctlOut, hsys, hopen, hd, hn, byte]

theorem Push_ok (sys : Nat → Int) (hsys : ∀ k, sys k = 0) (s : Stepper) (w : World)
    (hopen : w.port.mPortOpened = true) (hoff : s._offset < 30) :
    Stepper.Push sys s w =
      ((s, { w with dev := { w.dev with
          data := byte ((w.dev.data.val &&& intNot (3 <<< s._offset)) ||| (s._state <<< s._offset))
          trace := w.dev.trace ++
            [Event.ioctl w.port.mPortFD Request.PPRDATA 0 0,
             Event.ioctl w.port.mPortFD Request.PPWDATA
               (((w.dev.data.val &&& intNot (3 <<< s._offset)) ||| (s._state <<< s._offset)) % 256) 0,
             Event.usleep s._delay] } }),
        Outcome.ok ()) := by
  simp [Stepper.Push, Nudge_ok sys hsys s w hopen hoff, andThen, usleep]

theorem Push_offset_zero (sys : Nat → Int) (hsys : ∀ k, sys k = 0) (s : Stepper) (w : World)
    (hopen : w.port.mPortOpened = true) (hoff : s._offset = 0) (hst : s._state < 4) :
    (Stepper.Push sys s w).2 = Outcome.ok () ∧ (Stepper.Push sys s w).1.1 = s ∧
    (Stepper.Push sys s w).1.2.port = w.port ∧
    ∃ v, v % 4 = s._state ∧
      (Stepper.Push sys s w).1.2.dev.trace = w.dev.trace ++
        [Event.ioctl w.port.mPortFD Request.PPRDATA 0 0,
         Event.ioctl w.port.mPortFD Request.PPWDATA v 0,
         Event.usleep s._delay] := by
  rw [Push_ok sys hsys s w hopen (by omega)]
  refine ⟨rfl, rfl, rfl, _, ?_, rfl⟩
  rw [hoff]
  exact phase_bits_at_offset_zero _ w.dev.data.isLt _ hst

theorem stepLoop_forward (sys : Nat → Int) (hsys : ∀ k, sys k = 0) :
    ∀ (k p : Nat) (s : Stepper) (w : World), w.port.mPortOpened = true → s._offset = 0 →
      s._pos = (p : Int) → p + k < 2 ^ 63 →
      ∃ evs : List Event,
        (Stepper.stepLoop sys 1 k s w).2 = Outcome.ok () ∧
        (Stepper.stepLoop sys 1 k s w).1.1._pos = ((p + k : Nat) : Int) ∧
        (Stepper.stepLoop sys 1 k s w).1.2.dev.trace = w.dev.trace ++ evs ∧
        (dataWrites evs).map (· % 4)
          = (List.range k).map (fun i => graycode2.getD ((p + i + 1) % 4) 0) := by
  intro k
  induction k with
  | zero =>
    intro p s w _ _ hp _
    exact ⟨[], rfl, by simpa [Stepper.stepLoop] using hp, by simp [Stepper.stepLoop], rfl⟩
  | succ k ih =>
    intro p s w hopen hoff hp hlt
    have hin : inLong (s._pos + 1) = true := by
      simp only [inLong, decide_eq_true_eq, hp]
      constructor <;> omega
    have hidx : graycode2At (phaseIndex 1 (s._pos + 1)) = some (graycode2.getD ((p + 1) % 4) 0) := by
      rw [hp]
      exact_mod_cast graycode2At_forward (p + 1)
    have hg := graycode2_getD_lt ((p + 1) % 4)
    obtain ⟨hp2, hp1, hpp, v, hv, htr⟩ := Push_offset_zero sys hsys
      { s with _pos := s._pos + 1, _state := graycode2.getD ((p + 1) % 4) 0 % 4 } w hopen
      hoff (Nat.mod_lt _ (by decide))
    obtain ⟨evs, h1, h2, h3, h4⟩ := ih (p + 1)
      { s with _pos := s._pos + 1, _state := graycode2.getD ((p + 1) % 4) 0 % 4 }
      (Stepper.Push sys
        { s with _pos := s._pos + 1, _state := graycode2.getD ((p + 1) % 4) 0 % 4 } w).1.2
      (by rw [hpp]; exact hopen) hoff (by simp [hp]) (by omega)
    have hstep : Stepper.stepLoop sys 1 (k + 1) s w =
        Stepper.stepLoop sys 1 k
          { s with _pos := s._pos + 1, _state := graycode2.getD ((p + 1) % 4) 0 % 4 }
          (Stepper.Push sys
            { s with _pos := s._pos + 1, _state := graycode2.getD ((p + 1) % 4) 0 % 4 } w).1.2 := by
      rw [Stepper.stepLoop]
      simp only [hin, hidx, andThen, hp2, hp1]
      simp
    rw [hstep]
    refine ⟨[Event.ioctl w.port.mPortFD Request.PPRDATA 0 0,
         Event.ioctl w.port.mPortFD Request.PPWDATA v 0,
         Event.usleep s._delay] ++ evs, h1, ?_, ?_, ?_⟩
    · rw [h2]; push_cast; ring
    · rw [h3, htr]
      simp only [List.append_assoc]
    · have hl : (List.range (k + 1)).map (fun i => graycode2.getD ((p + i + 1) % 4) 0)
          = graycode2.getD ((p + 1) % 4) 0
              :: (List.range k).map (fun i => graycode2.getD ((p + 1 + i + 1) % 4) 0) := by
        rw [List.range_succ_eq_map, List.map_cons, List.map_map]
        congr 1
        apply List.map_congr_left
        intro i _
        show graycode2.getD ((p + (i + 1) + 1) % 4) 0 = graycode2.getD ((p + 1 + i + 1) % 4) 0
        rw [show p + (i + 1) + 1 = p + 1 + i + 1 by omega]
      rw [hl, ← h4]
      simp only at hv
      simp only [List.cons_append, List.nil_append, dataWrites, List.map_cons, hv,
        Nat.mod_eq_of_lt hg]
      rfl

/-- Where the forward index is an index of the table: at the non-negative positions. -/
theorem phaseIndex_forward_in_table (p : Int) (hp : 0 ≤ p) :
    0 ≤ phaseIndex 1 p ∧ phaseIndex 1 p < 4 := by
  have h : phaseIndex 1 p = p % 4 := by
    simp [phaseIndex, Int.tmod_eq_emod hp (by decide : (0 : Int) ≤ 4)]
  rw [h]
  omega

/-- Where the reverse index is an index of the table: at the positions up to 3. -/
theorem phaseIndex_reverse_in_table (p : Int) (hp : p ≤ 3) :
    0 ≤ phaseIndex (-1) p ∧ phaseIndex (-1) p < 4 := by
  have h : phaseIndex (-1) p = 3 - (3 - p) % 4 := by
    simp [phaseIndex, Int.tmod_eq_emod (by omega : (0 : Int) ≤ 3 - p) (by decide : (0 : Int) ≤ 4)]
  rw [h]
  omega

theorem Open_ok_opened (sys : Nat → Int) (name : String) (w w1 : World)
    (h : ParallelPort.Open sys name w = (w1, Outcome.ok ())) :
    w1.port.mPortOpened = true := by
  cases hw : w.port.mPortOpened with
  | true => rw [Open_on_open sys name w hw] at h; simp at h
  | false =>
    have hk := (Open_ok_iff sys name w hw).mp (by rw [h])
    rw [Open_succeeds sys name w hw hk.1 hk.2.1 hk.2.2.1 hk.2.2.2] at h
    simp at h
    rw [← h]

/-! ## Bits of the data register written by `Nudge` -/

theorem intNot_testBit (x : Nat) (hx : x < 2 ^ 32) (j : Nat) :
    (intNot x).testBit j = (decide (j < 32) && !x.testBit j) := by
  have h : intNot x = 2 ^ 32 - (x + 1) := by unfold intNot; omega
  rw [h, Nat.testBit_two_pow_sub_succ hx]

theorem testBit_byte_high (c : Nat) (hc : c < 256) (j : Nat) (hj : 8 ≤ j) : c.testBit j = false := by
  apply Nat.testBit_lt_two_pow
  calc c < 2 ^ 8 := hc
    _ ≤ 2 ^ j := Nat.pow_le_pow_right (by decide) hj

theorem testBit_one (i : Nat) : Nat.testBit 1 i = decide (i < 1) := by
  simpa using Nat.testBit_two_pow_sub_one 1 i

theorem testBit_three (i : Nat) : Nat.testBit 3 i = decide (i < 2) := by
  simpa using Nat.testBit_two_pow_sub_one 2 i

/-- Bits of the byte computed by a read-modify-write of the `n`-bit field at `off`:
`(c & ~(m << off)) | (b << off)` where `m` is the mask of `n` ones. -/
theorem field_write_testBit (m n off c b j : Nat) (hm : ∀ i, m.testBit i = decide (i < n))
    (hlt : m <<< off < 2 ^ 32) (hc : c < 256) :
    ((c &&& intNot (m <<< off)) ||| (b <<< off)).testBit j =
      ((c.testBit j && !(decide (off ≤ j) && decide (j - off < n)))
        || (decide (off ≤ j) && b.testBit (j - off))) := by
  rw [Nat.testBit_lor, Nat.testBit_land, intNot_testBit _ hlt, Nat.testBit_shiftLeft,
    Nat.testBit_shiftLeft, hm]
  by_cases h32 : j < 32
  · simp [h32]
  · have : c.testBit j = false := testBit_byte_high c hc j (by omega)
    simp [this]

theorem testBit_small (b n k : Nat) (hb : b < 2 ^ n) (hk : n ≤ k) : b.testBit k = false := by
  apply Nat.testBit_lt_two_pow
  exact lt_of_lt_of_le hb (Nat.pow_le_pow_right (by decide) hk)

theorem shiftLeft_mask_lt (m n off : Nat) (hm : m < 2 ^ n) (h : off + n ≤ 31) :
    m <<< off < 2 ^ 32 := by
  rw [Nat.shiftLeft_eq]
  calc m * 2 ^ off < 2 ^ n * 2 ^ off := Nat.mul_lt_mul_of_pos_right hm (Nat.two_pow_pos off)
    _ = 2 ^ (n + off) := (Nat.pow_add 2 n off).symm
    _ ≤ 2 ^ 32 := Nat.pow_le_pow_right (by decide) (by omega)

/-- A field that lies inside the byte keeps the computed value inside the byte. -/
theorem field_write_lt (m n off c b : Nat) (hm : ∀ i, m.testBit i = decide (i < n))
    (hlt : m <<< off < 2 ^ 32) (hc : c < 256) (hb : b < 2 ^ n) (hin : off + n ≤ 8) :
    (c &&& intNot (m <<< off)) ||| (b <<< off) < 256 := by
  apply Nat.lt_pow_two_of_testBit (n := 8)
  intro i hi
  rw [field_write_testBit m n off c b i hm hlt hc, testBit_byte_high c hc i hi,
    testBit_small b n (i - off) hb (by omega)]
  simp

theorem Onoff_Nudge_ok (sys : Nat → Int) (hsys : ∀ k, sys k = 0) (state : Bool) (d : Onoff)
    (w : World) (hopen : w.port.mPortOpened = true) (hoff : d._offset < 31) :
    Onoff.Nudge sys state d w =
      (({ d with _state := state }, { w with dev := { w.dev with
          data := byte ((w.dev.data.val &&& intNot (1 <<< d._offset))
                          ||| ((if state then 1 else 0) <<< d._offset))
          trace := w.dev.trace ++
            [Event.ioctl w.port.mPortFD Request.PPRDATA 0 0,
             Event.ioctl w.port.mPortFD Request.PPWDATA
               (((w.dev.data.val &&& intNot (1 <<< d._offset))
                  ||| ((if state then 1 else 0) <<< d._offset)) % 256) 0] } }),
        Outcome.ok ()) := by
  have hd : (w.dev.data : Nat) % 256 = w.dev.data := Nat.mod_eq_of_lt w.dev.data.isLt
  have hn : ¬ 31 ≤ d._offset := not_le.mpr hoff
  simp [Onoff.Nudge, andThen, onPort, ParallelPort.Data, ParallelPort.SetData, ioctl, ioctlEffect,
    ioctlOut, hsys, hopen, hd, hn, byte]

theorem Onoff_set_ok (sys : Nat → Int) (hsys : ∀ k, sys k = 0) (state : Bool) (d : Onoff)
    (w : World) (hopen : w.port.mPortOpened = true) (hoff : d._offset < 31) :
    Onoff.set sys state d w =
      (({ d with _state := state }, { w with dev := { w.dev with
          data := byte ((w.dev.data.val &&& intNot (1 <<< d._offset))
                          ||| ((if state then 1 else 0) <<< d._offset))
          trace := w.dev.trace ++
            [Event.ioctl w.port.mPortFD Request.PPRDATA 0 0,
             Event.ioctl w.port.mPortFD Request.PPWDATA
               (((w.dev.data.val &&& intNot (1 <<< d._offset))
                  ||| ((if state then 1 else 0) <<< d._offset)) % 256) 0,
             Event.usleep d._delay] } }),
        Outcome.ok state) := by
  simp [Onoff.set, Onoff_Nudge_ok sys hsys state d w hopen hoff, andThen, usleep]

/-- A field placed at bit 8 or above leaves the byte as it was read. -/
theorem field_write_outside (m n off c b : Nat) (hm : ∀ i, m.testBit i = decide (i < n))
    (hlt : m <<< off < 2 ^ 32) (hc : c < 256) (hoff : 8 ≤ off) :
    ((c &&& intNot (m <<< off)) ||| (b <<< off)) % 256 = c := by
  apply Nat.eq_of_testBit_eq
  intro i
  have h8 : (256 : Nat) = 2 ^ 8 := by norm_num
  rw [h8, Nat.testBit_mod_two_pow, field_write_testBit m n off c b i hm hlt hc]
  by_cases hi : i < 8
  · have h1 : ¬ off ≤ i := by omega
    simp [hi, h1]
  · simp [hi, testBit_byte_high c hc i (by omega)]

/-! ## Fields that stepper operations leave alone -/

theorem andThen_inv {σ α β : Type} (P : σ → Prop) (r : σ × Outcome α)
    (k : σ → α → σ × Outcome β) (hr : P r.1) (hk : ∀ st a, P st → P (k st a).1) :
    P (andThen r k).1 := by
  unfold andThen
  split
  · exact hk _ _ hr
  · exact hr
  · exact hr

theorem Nudge_stepper (sys : Nat → Int) (s : Stepper) (w : World) :
    (Stepper.Nudge sys s w).1.1 = s := by
  unfold Stepper.Nudge
  split_ifs
  · rfl
  · exact andThen_inv (fun st : Stepper × World => st.1 = s) _ _ rfl (fun st _ h => h)

theorem Push_stepper (sys : Nat → Int) (s : Stepper) (w : World) :
    (Stepper.Push sys s w).1.1 = s := by
  unfold Stepper.Push
  exact andThen_inv (fun st : Stepper × World => st.1 = s) _ _ (Nudge_stepper sys s w)
    (fun st _ h => h)

theorem stepLoop_steps (sys : Nat → Int) (sign : Int) :
    ∀ (k : Nat) (s : Stepper) (w : World),
      (Stepper.stepLoop sys sign k s w).1.1._steps = s._steps := by
  intro k
  induction k with
  | zero => intro s w; rfl
  | succ k ih =>
    intro s w
    rw [Stepper.stepLoop]
    dsimp only
    split_ifs
    · rfl
    · rfl
    · split
      · rfl
      · exact andThen_inv (fun st : Stepper × World => st.1._steps = s._steps) _ _
          (by show (Stepper.Push sys _ w).1.1._steps = s._steps; rw [Push_stepper])
          (fun st _ h => (ih st.1 st.2).trans h)

theorem Step_steps (sys : Nat → Int) (n : Int) (s : Stepper) (w : World) :
    (Stepper.Step sys n s w).1.1._steps = s._steps := by
  unfold Stepper.Step
  dsimp only
  split_ifs <;> first | rfl | exact stepLoop_steps sys _ _ s w

theorem goTo_steps (sys : Nat → Int) (pos : Int) (s : Stepper) (w : World) :
    (Stepper.goTo sys pos s w).1.1._steps = s._steps := by
  unfold Stepper.goTo
  split_ifs
  · rfl
  · exact Step_steps sys _ s w

theorem StepperOp_run_steps (sys : Nat → Int) (op : StepperOp) (s : Stepper) (w : World) :
    (StepperOp.run sys op s w).1.1._steps = s._steps := by
  cases op with
  | setPos pos => rfl
  | setDelay delay =>
    simp only [StepperOp.run, Stepper.setDelay]
    split_ifs <;> rfl
  | setSpeed speed =>
    simp only [StepperOp.run, Stepper.setSpeed]
    split_ifs <;> rfl
  | Step steps => exact Step_steps sys steps s w
  | goTo pos => exact goTo_steps sys pos s w

theorem runStepperOps_steps (sys : Nat → Int) (ops : List StepperOp) :
    ∀ (s : Stepper) (w : World), (runStepperOps sys ops s w).1.1._steps = s._steps := by
  induction ops with
  | nil => intro s w; rfl
  | cons op rest ih =>
    intro s w
    rw [runStepperOps]
    exact andThen_inv (fun st : Stepper × World => st.1._steps = s._steps) _ _
      (StepperOp_run_steps sys op s w) (fun st _ h => (ih st.1 st.2).trans h)

/-! ## The table index, further facts -/

theorem tmod_neg_nat (n : Nat) : Int.tmod (-(n : Int)) 4 = -((n % 4 : Nat) : Int) := by
  cases n with
  | zero => rfl
  | succ m => rfl

/-- Whenever the index computed in `Step` is an index of the table, it is the
non-negative remainder of the position modulo 4, in either direction. -/
theorem phaseIndex_in_table_eq_mod (sign p : Int)
    (h : 0 ≤ phaseIndex sign p ∧ phaseIndex sign p < 4) : phaseIndex sign p = p % 4 := by
  unfold phaseIndex at h ⊢
  split_ifs at h ⊢
  · rcases Int.le_total 0 p with hp | hp
    · rw [Int.tmod_eq_emod hp (by decide)]
    · obtain ⟨n, rfl⟩ := Int.exists_eq_neg_ofNat hp
      rw [tmod_neg_nat] at h ⊢
      omega
  · rcases Int.le_total 0 (3 - p) with hp | hp
    · rw [Int.tmod_eq_emod hp (by decide)]
      omega
    · obtain ⟨n, hn⟩ := Int.exists_eq_neg_ofNat hp
      rw [hn, tmod_neg_nat] at h ⊢
      omega

theorem closed_port_close (sys : Nat → Int) (w : World) (h : w.port.mPortOpened = false) :
    ParallelPort.Close sys w = (w, Outcome.throw ParallelPort_errors.Closed) := by
  simp [ParallelPort.Close, h]

/-- For a delay above 0 both `setDelay` functions return normally, store the delay and
return it. -/
theorem setDelay_positive (delay : Nat) (d : Onoff) (s : Stepper) (h : 0 < delay) :
    (Onoff.setDelay delay d).2 = Outcome.ok delay ∧ (Onoff.setDelay delay d).1._delay = delay ∧
    (Stepper.setDelay delay s).2 = Outcome.ok delay ∧
    (Stepper.setDelay delay s).1._delay = delay := by
  have h0 : delay ≠ 0 := by omega
  simp [Onoff.setDelay, Stepper.setDelay, h0]

theorem stepLoop_offset (sys : Nat → Int) (sign : Int) :
    ∀ (k : Nat) (s : Stepper) (w : World),
      (Stepper.stepLoop sys sign k s w).1.1._offset = s._offset := by
  intro k
  induction k with
  | zero => intro s w; rfl
  | succ k ih =>
    intro s w
    rw [Stepper.stepLoop]
    dsimp only
    split_ifs
    · rfl
    · rfl
    · split
      · rfl
      · exact andThen_inv (fun st : Stepper × World => st.1._offset = s._offset) _ _
          (by show (Stepper.Push sys _ w).1.1._offset = s._offset; rw [Push_stepper])
          (fun st _ h => (ih st.1 st.2).trans h)

theorem Step_offset (sys : Nat → Int) (n : Int) (s : Stepper) (w : World) :
    (Stepper.Step sys n s w).1.1._offset = s._offset := by
  unfold Stepper.Step
  dsimp only
  split_ifs <;> first | rfl | exact stepLoop_offset sys _ _ s w

theorem goTo_offset (sys : Nat → Int) (pos : Int) (s : Stepper) (w : World) :
    (Stepper.goTo sys pos s w).1.1._offset = s._offset := by
  unfold Stepper.goTo
  split_ifs
  · rfl
  · exact Step_offset sys _ s w

theorem StepperOp_run_offset (sys : Nat → Int) (op : StepperOp) (s : Stepper) (w : World) :
    (StepperOp.run sys op s w).1.1._offset = s._offset := by
  cases op with
  | setPos pos => rfl
  | setDelay delay =>
    simp only [StepperOp.run, Stepper.setDelay]
    split_ifs <;> rfl
  | setSpeed speed =>
    simp only [StepperOp.run, Stepper.setSpeed]
    split_ifs <;> rfl
  | Step steps => exact Step_offset sys steps s w
  | goTo pos => exact goTo_offset sys pos s w

theorem runStepperOps_offset (sys : Nat → Int) (ops : List StepperOp) :
    ∀ (s : Stepper) (w : World), (runStepperOps sys ops s w).1.1._offset = s._offset := by
  induction ops with
  | nil => intro s w; rfl
  | cons op rest ih =>
    intro s w
    rw [runStepperOps]
    exact andThen_inv (fun st : Stepper × World => st.1._offset = s._offset) _ _
      (StepperOp_run_offset sys op s w) (fun st _ h => (ih st.1 st.2).trans h)

/-- A stepper whose bit offset is 16, whatever its phase: on an open port whose system
calls succeed, `Nudge` returns normally and the one byte it writes is the byte it read. -/
theorem Nudge_offset_sixteen (sys : Nat → Int) (hsys : ∀ k, sys k = 0) (s : Stepper) (w : World)
    (hopen : w.port.mPortOpened = true) (ho : s._offset = 16) :
    (Stepper.Nudge sys s w).2 = Outcome.ok () ∧
    dataWrites (newEvents w (Stepper.Nudge sys s w).1.2) = [w.dev.data.val] ∧
    (Stepper.Nudge sys s w).1.2.dev.data = w.dev.data := by
  have hw := field_write_outside 3 2 16 w.dev.data.val s._state
    testBit_three (by decide) w.dev.data.isLt (by decide)
  rw [Nudge_ok sys hsys s w hopen (by rw [ho]; decide)]
  refine ⟨rfl, ?_, ?_⟩
  · simp only [newEvents, List.drop_left, dataWrites, ho, hw]
  · apply Fin.ext
    simp only [byte, ho, hw]

/-- The default constructor `Stepper()` sets steps-per-unit to 0. -/
theorem default_constructor_steps_zero :
    ¬ (∀ speed0 : ℚ, 4 ≤ (Stepper.new speed0)._steps ∧ (Stepper.new speed0)._steps % 4 = 0) := by
  intro h
  have h0 := (h 0).1
  revert h0
  decide

/-- A stepper built by the validating constructor has steps-per-unit at least 4 and
divisible by 4, and keeps that value through every sequence of `setPos`, `setDelay`,
`setSpeed`, `Step` and `goTo`, however each call ends; a stepper built by the default
constructor keeps its 0 through the same calls. -/
theorem steps_per_unit_preserved (sys : Nat → Int) (speed0 : ℚ) (steps offset : Nat)
    (ops : List StepperOp) (w : World) :
    (4 ≤ (runStepperOps sys ops (Stepper.mk3 speed0 steps offset) w).1.1._steps ∧
      (runStepperOps sys ops (Stepper.mk3 speed0 steps offset) w).1.1._steps % 4 = 0) ∧
    (runStepperOps sys ops (Stepper.new speed0) w).1.1._steps = 0 := by
  rw [runStepperOps_steps, runStepperOps_steps]
  refine ⟨?_, rfl⟩
  simp only [Stepper.mk3]
  split_ifs <;> omega

/-! ## The claims -/

/-- C1 (failing input): from position 0 (phase 0) `Step(5)` returns normally at position 5,
and the following `Step(-5)` does not return to position 0: its first reverse step arrives
at position 4, where the index `3 - (3 - 4) % 4` is 4, outside `graycode2`. -/
theorem step_round_trip_leaves_table :
    (Stepper.Step sysOk 5 (stepperAt 0 0 0) (openWorld 0)).2 = Outcome.ok () ∧
    (Stepper.Step sysOk 5 (stepperAt 0 0 0) (openWorld 0)).1.1 = stepperAt 0 5 1 ∧
    phaseIndex (-1) 4 = 4 ∧
    (Stepper.Step sysOk (-5) (Stepper.Step sysOk 5 (stepperAt 0 0 0) (openWorld 0)).1.1
      (Stepper.Step sysOk 5 (stepperAt 0 0 0) (openWorld 0)).1.2).2 = Outcome.undefined ∧
    (Stepper.Step sysOk (-5) (Stepper.Step sysOk 5 (stepperAt 0 0 0) (openWorld 0)).1.1
      (Stepper.Step sysOk 5 (stepperAt 0 0 0) (openWorld 0)).1.2).1.1._pos = 4 := by
  refine ⟨rfl, rfl, rfl, rfl, rfl⟩

/-- C2: for a stepper at position 0 with bit offset 0, on an open port whose system calls
all succeed, and for every step count `n` with `0 ≤ n` (an `int`, so `n < 2 ^ 31`),
`Step(n)` returns normally with `_pos = n`; the data-register writes it issues number
exactly `n`, and the `i`-th of them (`i = 1..n`) carries `graycode2[i mod 4]` in bits 0..1
of the byte written.  For `n = 4` the phases written are 1, 3, 2, 0 in this order. -/
theorem step_forward_from_zero (sys : Nat → Int) (s : Stepper) (w : World) (n : Int)
    (hsys : ∀ k, sys k = 0) (hopen : w.port.mPortOpened = true)
    (hpos : s._pos = 0) (hoff : s._offset = 0) (hn : 0 ≤ n) (hint : n < 2 ^ 31) :
    (Stepper.Step sys n s w).2 = Outcome.ok () ∧
    (Stepper.Step sys n s w).1.1._pos = n ∧
    (dataWrites (newEvents w (Stepper.Step sys n s w).1.2)).length = n.toNat ∧
    (dataWrites (newEvents w (Stepper.Step sys n s w).1.2)).map (· % 4)
      = (List.range n.toNat).map (fun i => graycode2.getD ((i + 1) % 4) 0) ∧
    (n = 4 → (dataWrites (newEvents w (Stepper.Step sys n s w).1.2)).map (· % 4) = [1, 3, 2, 0]) := by
  obtain ⟨m, rfl⟩ := Int.eq_ofNat_of_zero_le hn
  have hm : m < 2 ^ 31 := by exact_mod_cast hint
  have hstep : Stepper.Step sys (m : Int) s w = Stepper.stepLoop sys 1 m s w := by
    have h1 : ¬ ((m : Int) < 0) := by omega
    have h2 : inInt (m : Int) = true := by
      simp only [inInt, decide_eq_true_eq]
      constructor <;> omega
    simp [Stepper.Step, h1, h2]
  obtain ⟨evs, h1, h2, h3, h4⟩ := stepLoop_forward sys hsys m 0 s w hopen hoff
    (by simpa using hpos) (by omega)
  rw [hstep]
  have hnew : newEvents w (Stepper.stepLoop sys 1 m s w).1.2 = evs := by
    simp [newEvents, h3]
  have h4' : (dataWrites evs).map (· % 4)
      = (List.range m).map (fun i => graycode2.getD ((i + 1) % 4) 0) := by
    simpa using h4
  rw [hnew]
  refine ⟨h1, by simpa using h2, ?_, by simpa using h4', ?_⟩
  · have := congrArg List.length h4'
    simpa using this
  · intro h
    have hm4 : m = 4 := by exact_mod_cast h
    rw [h4', hm4]
    rfl

theorem step_forward_from_zero_witness :
    (∀ k, sysOk k = 0) ∧ (openWorld 0).port.mPortOpened = true ∧
    (Stepper.Step sysOk 4 (stepperAt 0 0 0) (openWorld 0)).2 = Outcome.ok () ∧
    (Stepper.Step sysOk 4 (stepperAt 0 0 0) (openWorld 0)).1.1._pos = 4 ∧
    (dataWrites (newEvents (openWorld 0)
      (Stepper.Step sysOk 4 (stepperAt 0 0 0) (openWorld 0)).1.2)).map (· % 4) = [1, 3, 2, 0] :=
  have h := step_forward_from_zero sysOk (stepperAt 0 0 0) (openWorld 0) 4 (fun _ => rfl) rfl rfl rfl
    (by decide) (by decide)
  ⟨fun _ => rfl, rfl, h.1, h.2.1, h.2.2.2.2 rfl⟩

/-- C3 (failing input): `Zero` on a machine whose stepper was stepped to position 7
(phase 2) and whose on/off device is on.  The position becomes 0 and the on/off device is
switched off, but `setPos` leaves `_state` at 2, so the phase re-applied by `Push` is 2:
the bytes written are 0, 2, 2 and the data register ends at 2, not 0.  (A stepper that
steps to position 0 is given phase 0 there.) -/
theorem zero_reapplies_stale_phase :
    (Stepper.Step sysOk 7 (stepperAt 0 0 0) (openWorld 0)).1.1 = stepperAt 0 7 2 ∧
    (Machine.Zero sysOk machineAt7 (openWorld 6)).2 = Outcome.ok () ∧
    (Machine.Zero sysOk machineAt7 (openWorld 6)).1.1.steppers = [stepperAt 0 0 2] ∧
    (Machine.Zero sysOk machineAt7 (openWorld 6)).1.1.onoffs.map Onoff.get = [false] ∧
    dataWrites (Machine.Zero sysOk machineAt7 (openWorld 6)).1.2.dev.trace = [0, 2, 2] ∧
    (Machine.Zero sysOk machineAt7 (openWorld 6)).1.2.dev.data = 2 ∧
    (Stepper.Step sysOk (-1) (stepperAt 0 1 1) (openWorld 1)).1.1 = stepperAt 0 0 0 := by
  refine ⟨rfl, rfl, rfl, rfl, rfl, rfl, rfl⟩

/-- C4 (failing input): advancing to position -1 uses index `(-1) % 4 = -1`, and reversing
to position 4 uses index `3 - (3 - 4) % 4 = 4`; neither is an index of `graycode2`, and a
stepper at position -2 that is asked for one forward step leaves defined behaviour. -/
theorem phase_index_outside_table :
    phaseIndex 1 (-1) = -1 ∧ graycode2At (phaseIndex 1 (-1)) = none ∧
    phaseIndex (-1) 4 = 4 ∧ graycode2At (phaseIndex (-1) 4) = none ∧
    (Stepper.Step sysOk (-2) (stepperAt 0 0 0) (openWorld 0)).1.1 = stepperAt 0 (-2) 3 ∧
    (Stepper.Step sysOk 1 (stepperAt 0 (-2) 3) (openWorld 0)).2 = Outcome.undefined := by
  refine ⟨rfl, rfl, rfl, rfl, rfl, rfl⟩

/-- C5 (failing input): a stepper brought to position -5 by `Step(-5)` and then asked for
`Step(2)`.  The first forward step arrives at -4 and writes phase 0; the second arrives at
-3, where the index `(-3) % 4` is -3, so the second phase is read outside `graycode2`. -/
theorem forward_step_below_zero_undefined :
    (Stepper.Step sysOk (-5) (stepperAt 0 0 0) (openWorld 0)).1.1 = stepperAt 0 (-5) 2 ∧
    phaseIndex 1 (-3) = -3 ∧
    (Stepper.Step sysOk 2 (stepperAt 0 (-5) 2) (openWorld 2)).2 = Outcome.undefined ∧
    dataWrites (Stepper.Step sysOk 2 (stepperAt 0 (-5) 2) (openWorld 2)).1.2.dev.trace = [0] := by
  refine ⟨rfl, rfl, rfl, rfl⟩

/-- C6: on a port that is not open, every register operation (reading and writing the
data register, reading the status register, reading and writing the control register,
getting and setting the data direction), `PortName` and `Close` throw `Closed`, and
the handle and the device, trace of system calls included, are unchanged. -/
theorem closed_port_rejects_operations (sys : Nat → Int) (c : Nat) (out : Bool) (w : World)
    (h : w.port.mPortOpened = false) :
    ParallelPort.Data sys w = (w, Outcome.throw ParallelPort_errors.Closed) ∧
    ParallelPort.SetData sys c w = (w, Outcome.throw ParallelPort_errors.Closed) ∧
    ParallelPort.Stat sys w = (w, Outcome.throw ParallelPort_errors.Closed) ∧
    ParallelPort.Ctrl sys w = (w, Outcome.throw ParallelPort_errors.Closed) ∧
    ParallelPort.SetCtrl sys c w = (w, Outcome.throw ParallelPort_errors.Closed) ∧
    ParallelPort.DataOut w = (w, Outcome.throw ParallelPort_errors.Closed) ∧
    ParallelPort.SetDataOut sys out w = (w, Outcome.throw ParallelPort_errors.Closed) ∧
    ParallelPort.PortName w = (w, Outcome.throw ParallelPort_errors.Closed) ∧
    ParallelPort.Close sys w = (w, Outcome.throw ParallelPort_errors.Closed) := by
  simp [ParallelPort.Data, ParallelPort.SetData, ParallelPort.Stat, ParallelPort.Ctrl,
    ParallelPort.SetCtrl, ParallelPort.DataOut, ParallelPort.SetDataOut, ParallelPort.PortName,
    ParallelPort.Close, h]

theorem closed_port_rejects_operations_witness :
    (closedWorld 5 7 9).port.mPortOpened = false ∧
    (ParallelPort.Data sysOk (closedWorld 5 7 9)
        = (closedWorld 5 7 9, Outcome.throw ParallelPort_errors.Closed) ∧
     ParallelPort.SetData sysOk 255 (closedWorld 5 7 9)
        = (closedWorld 5 7 9, Outcome.throw ParallelPort_errors.Closed) ∧
     ParallelPort.Stat sysOk (closedWorld 5 7 9)
        = (closedWorld 5 7 9, Outcome.throw ParallelPort_errors.Closed) ∧
     ParallelPort.Ctrl sysOk (closedWorld 5 7 9)
        = (closedWorld 5 7 9, Outcome.throw ParallelPort_errors.Closed) ∧
     ParallelPort.SetCtrl sysOk 255 (closedWorld 5 7 9)
        = (closedWorld 5 7 9, Outcome.throw ParallelPort_errors.Closed) ∧
     ParallelPort.DataOut (closedWorld 5 7 9)
        = (closedWorld 5 7 9, Outcome.throw ParallelPort_errors.Closed) ∧
     ParallelPort.SetDataOut sysOk true (closedWorld 5 7 9)
        = (closedWorld 5 7 9, Outcome.throw ParallelPort_errors.Closed) ∧
     ParallelPort.PortName (closedWorld 5 7 9)
        = (closedWorld 5 7 9, Outcome.throw ParallelPort_errors.Closed) ∧
     ParallelPort.Close sysOk (closedWorld 5 7 9)
        = (closedWorld 5 7 9, Outcome.throw ParallelPort_errors.Closed)) :=
  ⟨rfl, closed_port_rejects_operations sysOk 255 true (closedWorld 5 7 9) rfl⟩

/-- C7: when `Open` has succeeded, a second `Open` (any port name, any behaviour of the
device) throws `Opened` and returns the handle and the device exactly as the first
`Open` left them: no field changes and no system call is issued. -/
theorem open_twice_throws_opened (sys sys2 : Nat → Int) (name name2 : String) (w w1 : World)
    (h : ParallelPort.Open sys name w = (w1, Outcome.ok ())) :
    ParallelPort.Open sys2 name2 w1 = (w1, Outcome.throw ParallelPort_errors.Opened) :=
  Open_on_open sys2 name2 w1 (Open_ok_opened sys name w w1 h)

theorem open_twice_throws_opened_witness :
    ParallelPort.Open sysOk "/dev/parport0" (closedWorld 5 7 9)
      = ((ParallelPort.Open sysOk "/dev/parport0" (closedWorld 5 7 9)).1, Outcome.ok ()) ∧
    ParallelPort.Open sysOk "/dev/parport1" (ParallelPort.Open sysOk "/dev/parport0" (closedWorld 5 7 9)).1
      = ((ParallelPort.Open sysOk "/dev/parport0" (closedWorld 5 7 9)).1,
          Outcome.throw ParallelPort_errors.Opened) :=
  ⟨rfl, open_twice_throws_opened sysOk sysOk "/dev/parport0" "/dev/parport1" (closedWorld 5 7 9) _ rfl⟩

/-- C8: after a successful `Open`, any sequence of data and control register writes
(whatever their outcome) and a successful `Close`, the data register and the control
register of the device hold the values they held when `Open` was called; `Close` issues
exactly four system calls, in this order: the write of the saved data byte, the write of
the saved control byte, the release of the claim (`PPRELEASE`), the `close` of the
descriptor; the device is left unclaimed. -/
theorem close_restores_registers (sys : Nat → Int) (name : String) (ops : List PortWrite)
    (w0 w1 w3 : World)
    (hopen : ParallelPort.Open sys name w0 = (w1, Outcome.ok ()))
    (hclose : ParallelPort.Close sys (runWrites sys ops w1).1 = (w3, Outcome.ok ())) :
    w3.dev.data = w0.dev.data ∧ w3.dev.ctrl = w0.dev.ctrl ∧ w3.dev.claimed = false ∧
    w3.dev.trace = (runWrites sys ops w1).1.dev.trace ++
      [Event.ioctl w1.port.mPortFD Request.PPWDATA w0.dev.data.val 0,
       Event.ioctl w1.port.mPortFD Request.PPWCONTROL w0.dev.ctrl.val 0,
       Event.ioctl w1.port.mPortFD Request.PPRELEASE 0
         (sys ((runWrites sys ops w1).1.dev.trace.length + 2)),
       Event.sysClose w1.port.mPortFD (sys ((runWrites sys ops w1).1.dev.trace.length + 3))] := by
  have hw0 : w0.port.mPortOpened = false := by
    cases hw : w0.port.mPortOpened with
    | false => rfl
    | true => rw [Open_on_open sys name w0 hw] at hopen; simp at hopen
  have hk := (Open_ok_iff sys name w0 hw0).mp (by rw [hopen])
  rw [Open_succeeds sys name w0 hw0 hk.1 hk.2.1 hk.2.2.1 hk.2.2.2] at hopen
  have hw1 := (Prod.mk.inj hopen).1
  have hp : (runWrites sys ops w1).1.port = w1.port := runWrites_port sys ops w1
  have hop : (runWrites sys ops w1).1.port.mPortOpened = true := by rw [hp, ← hw1]
  have hc := (Close_ok_iff sys _ hop).mp (by rw [hclose])
  rw [Close_succeeds sys _ hop hc.1 hc.2.1 hc.2.2.1 hc.2.2.2] at hclose
  have hw3 := (Prod.mk.inj hclose).1
  have hs : w1.port.mPortSavedRegs = (w0.dev.data.val, w0.dev.ctrl.val) := by rw [← hw1]
  have hd : (w0.dev.data : Nat) % 256 = w0.dev.data := Nat.mod_eq_of_lt w0.dev.data.isLt
  have hcm : (w0.dev.ctrl : Nat) % 256 = w0.dev.ctrl := Nat.mod_eq_of_lt w0.dev.ctrl.isLt
  rw [← hw3]
  simp [hp, hs, byte_val, hd, hcm]

theorem close_restores_registers_witness :
    ParallelPort.Open sysFd3 "/dev/parport0" (closedWorld 5 7 9)
      = ((ParallelPort.Open sysFd3 "/dev/parport0" (closedWorld 5 7 9)).1, Outcome.ok ()) ∧
    ParallelPort.Close sysFd3
        (runWrites sysFd3 [PortWrite.data 255, PortWrite.ctrl 1, PortWrite.data 0]
          (ParallelPort.Open sysFd3 "/dev/parport0" (closedWorld 5 7 9)).1).1
      = ((ParallelPort.Close sysFd3
          (runWrites sysFd3 [PortWrite.data 255, PortWrite.ctrl 1, PortWrite.data 0]
            (ParallelPort.Open sysFd3 "/dev/parport0" (closedWorld 5 7 9)).1).1).1, Outcome.ok ()) ∧
    (ParallelPort.Close sysFd3
        (runWrites sysFd3 [PortWrite.data 255, PortWrite.ctrl 1, PortWrite.data 0]
          (ParallelPort.Open sysFd3 "/dev/parport0" (closedWorld 5 7 9)).1).1).1.dev.data = 5 ∧
    (ParallelPort.Close sysFd3
        (runWrites sysFd3 [PortWrite.data 255, PortWrite.ctrl 1, PortWrite.data 0]
          (ParallelPort.Open sysFd3 "/dev/parport0" (closedWorld 5 7 9)).1).1).1.dev.ctrl = 7 :=
  ⟨rfl, rfl,
    (close_restores_registers sysFd3 "/dev/parport0"
      [PortWrite.data 255, PortWrite.ctrl 1, PortWrite.data 0] (closedWorld 5 7 9) _ _ rfl rfl).1,
    (close_restores_registers sysFd3 "/dev/parport0"
      [PortWrite.data 255, PortWrite.ctrl 1, PortWrite.data 0] (closedWorld 5 7 9) _ _ rfl rfl).2.1⟩

/-- C9: `Open` on a handle that is not open throws `Opening` exactly when the system call
`open` returns a negative code, and throws `Perm` exactly when `open` succeeds and the
`PPCLAIM` request returns a negative code.  When it throws `Perm` the calls issued are
`open`, the claim, and `close` of the descriptor just obtained, in this order.  In both
cases the handle is left not open with descriptor 0, under its former name. -/
theorem open_failure_modes (sys : Nat → Int) (name : String) (w : World)
    (h : w.port.mPortOpened = false) :
    ((ParallelPort.Open sys name w).2 = Outcome.throw ParallelPort_errors.Opening
        ↔ sys w.dev.trace.length < 0) ∧
    ((ParallelPort.Open sys name w).2 = Outcome.throw ParallelPort_errors.Perm
        ↔ 0 ≤ sys w.dev.trace.length ∧ sys (w.dev.trace.length + 1) < 0) ∧
    ((ParallelPort.Open sys name w).2 = Outcome.throw ParallelPort_errors.Perm →
        (ParallelPort.Open sys name w).1.dev.trace = w.dev.trace ++
          [Event.sysOpen name (sys w.dev.trace.length),
           Event.ioctl (sys w.dev.trace.length) Request.PPCLAIM 0 (sys (w.dev.trace.length + 1)),
           Event.sysClose (sys w.dev.trace.length) (sys (w.dev.trace.length + 2))]) ∧
    ((ParallelPort.Open sys name w).2 = Outcome.throw ParallelPort_errors.Opening ∨
      (ParallelPort.Open sys name w).2 = Outcome.throw ParallelPort_errors.Perm →
        (ParallelPort.Open sys name w).1.port.mPortOpened = false ∧
        (ParallelPort.Open sys name w).1.port.mPortFD = 0 ∧
        (ParallelPort.Open sys name w).1.port.mPortName = w.port.mPortName) := by
  by_cases h0 : 0 ≤ sys w.dev.trace.length
  · by_cases h1 : 0 ≤ sys (w.dev.trace.length + 1)
    · by_cases h2 : sys (w.dev.trace.length + 2) = 0
      · by_cases h3 : sys (w.dev.trace.length + 3) = 0
        · rw [Open_succeeds sys name w h h0 h1 h2 h3]; simp [h0, h1]
        · rw [Open_read_ctrl_fails sys name w h h0 h1 h2 h3]; simp [h0, h1]
      · rw [Open_read_data_fails sys name w h h0 h1 h2]; simp [h0, h1]
    · rw [Open_claim_fails sys name w h h0 (not_le.mp h1)]; simp [h0, h1, h, not_le.mp h1]
  · rw [Open_open_fails sys name w h (not_le.mp h0)]; simp [h0, h, not_le.mp h0]

theorem open_failure_modes_witness :
    (closedWorld 5 7 9).port.mPortOpened = false ∧
    (ParallelPort.Open sysNoClaim "/dev/parport0" (closedWorld 5 7 9)).2
      = Outcome.throw ParallelPort_errors.Perm ∧
    (ParallelPort.Open sysNoClaim "/dev/parport0" (closedWorld 5 7 9)).1.dev.trace =
      [Event.sysOpen "/dev/parport0" 3, Event.ioctl 3 Request.PPCLAIM 0 (-1), Event.sysClose 3 0] ∧
    (ParallelPort.Open sysNoClaim "/dev/parport0" (closedWorld 5 7 9)).1.port.mPortOpened = false ∧
    (ParallelPort.Open sysNoClaim "/dev/parport0" (closedWorld 5 7 9)).1.port.mPortFD = 0 :=
  have hw := open_failure_modes sysNoClaim "/dev/parport0" (closedWorld 5 7 9) rfl
  have hp := hw.2.1.mpr ⟨by decide, by decide⟩
  ⟨rfl, hp, hw.2.2.1 hp, (hw.2.2.2 (Or.inr hp)).1, (hw.2.2.2 (Or.inr hp)).2.1⟩

/-- C10 (failing input): `setDelay(1000)` on a stepper with 4 steps per unit stores delay
1000 and sets the speed to `60000000 / 1000 * 4 = 240000`, whereas `60000000 / (1000 * 4)`
is 15000; `setSpeed(15000)` on the same stepper gives delay 1000. -/
theorem setDelay_multiplies_by_steps :
    (Stepper.setDelay 1000 (stepperAt 0 0 0)).2 = Outcome.ok 1000 ∧
    (Stepper.setDelay 1000 (stepperAt 0 0 0)).1._delay = 1000 ∧
    (Stepper.setDelay 1000 (stepperAt 0 0 0)).1._speed = 240000 ∧
    (60000000 : ℚ) / (1000 * 4) = 15000 ∧
    (Stepper.setSpeed 15000 (stepperAt 0 0 0)).1._delay = 1000 := by
  refine ⟨rfl, rfl, ?_, by norm_num, ?_⟩
  · simp [Stepper.setDelay, stepperAt, minute, second]
  · simp [Stepper.setSpeed, stepperAt, minute, second]
    norm_num
    rfl

/-- C11: `setSpeed(0)` on an `Onoff` and on a `Stepper`, whatever their fields hold:
it returns 0 and leaves `_delay = 0` and `_speed = 0`, the other fields unchanged. -/
theorem setSpeed_zero (d : Onoff) (s : Stepper) :
    Onoff.setSpeed 0 d = ({ d with _speed := 0, _delay := 0 }, Outcome.ok 0) ∧
    (Onoff.setSpeed 0 d).1._delay = 0 ∧ (Onoff.setSpeed 0 d).1._speed = 0 ∧
    Stepper.setSpeed 0 s = ({ s with _speed := 0, _delay := 0 }, Outcome.ok 0) ∧
    (Stepper.setSpeed 0 s).1._delay = 0 ∧ (Stepper.setSpeed 0 s).1._speed = 0 := by
  simp [Onoff.setSpeed, Stepper.setSpeed]

/-- C12: the constructor `Stepper(steps, offset, port)` keeps `steps` when it is at
least 4 and a multiple of 4 and stores 4 otherwise (so 6 gives 4); it keeps `offset`
when it is at most 6 and stores the offset of the default constructor, 0x10, otherwise
(so 7 gives 0x10). -/
theorem validating_constructor_fields (speed0 : ℚ) (steps offset : Nat) :
    (Stepper.mk3 speed0 steps offset)._steps
      = (if 4 ≤ steps ∧ steps % 4 = 0 then steps else 4) ∧
    (Stepper.mk3 speed0 steps offset)._offset
      = (if offset ≤ 6 then offset else (Stepper.new speed0)._offset) ∧
    (Stepper.mk3 speed0 6 offset)._steps = 4 ∧
    (Stepper.mk3 speed0 steps 7)._offset = (Stepper.new speed0)._offset ∧
    (Stepper.new speed0)._offset = 0x10 := by
  refine ⟨?_, ?_, rfl, rfl, rfl⟩
  · simp only [Stepper.mk3]
    split_ifs <;> omega
  · simp only [Stepper.mk3, Stepper.new]
    split_ifs <;> omega

/-- C13 (counterexample): the validating constructor called with offset 7 yields bit
offset 16, so not every constructed stepper has its offset in 0..6. -/
theorem validating_constructor_offset_above_six :
    ¬ (∀ (speed0 : ℚ) (steps offset : Nat), (Stepper.mk3 speed0 steps offset)._offset ≤ 6) := by
  intro h
  have h7 := h 0 4 7
  revert h7
  decide

/-- C13 (amended): a stepper built by the validating constructor has the offset it was
given when that is in 0..6, and then both phase bits lie in the 8-bit data register;
otherwise it has the fallback offset 16, which lies outside the register.  No sequence of
`setPos`, `setDelay`, `setSpeed`, `Step` and `goTo` changes the offset, and on an open
port whose system calls succeed `Nudge` of any stepper with the fallback offset, whatever
its phase and position, returns normally and writes back the byte it read, so the data
register is unchanged. -/
theorem validating_constructor_offset (sys : Nat → Int) (speed0 : ℚ) (steps offset : Nat)
    (ops : List StepperOp) (w0 w : World) (hsys : ∀ k, sys k = 0)
    (hopen : w.port.mPortOpened = true) :
    (offset ≤ 6 → (Stepper.mk3 speed0 steps offset)._offset = offset ∧
      (Stepper.mk3 speed0 steps offset)._offset + 1 < 8) ∧
    (6 < offset → (Stepper.mk3 speed0 steps offset)._offset = 16 ∧
      (Stepper.Nudge sys (Stepper.mk3 speed0 steps offset) w).2 = Outcome.ok () ∧
      dataWrites (newEvents w (Stepper.Nudge sys (Stepper.mk3 speed0 steps offset) w).1.2)
        = [w.dev.data.val] ∧
      (Stepper.Nudge sys (Stepper.mk3 speed0 steps offset) w).1.2.dev.data = w.dev.data) ∧
    (runStepperOps sys ops (Stepper.mk3 speed0 steps offset) w0).1.1._offset
      = (Stepper.mk3 speed0 steps offset)._offset ∧
    (6 < offset → ∀ s : Stepper, s._offset = (Stepper.mk3 speed0 steps offset)._offset →
      (Stepper.Nudge sys s w).2 = Outcome.ok () ∧
      dataWrites (newEvents w (Stepper.Nudge sys s w).1.2) = [w.dev.data.val] ∧
      (Stepper.Nudge sys s w).1.2.dev.data = w.dev.data) := by
  refine ⟨?_, ?_, runStepperOps_offset sys ops _ w0, ?_⟩
  · intro h
    have h6 : ¬ offset > 6 := by omega
    have ho : (Stepper.mk3 speed0 steps offset)._offset = offset := if_neg h6
    rw [ho]
    exact ⟨rfl, by omega⟩
  · intro h
    have ho : (Stepper.mk3 speed0 steps offset)._offset = 16 := if_pos h
    exact ⟨ho, Nudge_offset_sixteen sys hsys _ w hopen ho⟩
  · intro h s hs
    have ho : (Stepper.mk3 speed0 steps offset)._offset = 16 := if_pos h
    exact Nudge_offset_sixteen sys hsys s w hopen (hs.trans ho)

theorem validating_constructor_offset_witness :
    (∀ k, sysOk k = 0) ∧ (openWorld 0xA4).port.mPortOpened = true ∧
    ((3 : Nat) ≤ 6 → (Stepper.mk3 0 8 3)._offset = 3 ∧ (Stepper.mk3 0 8 3)._offset + 1 < 8) ∧
    (Stepper.Step sysOk 2 (Stepper.mk3 0 8 7) (openWorld 0xA4)).1.1._state = 3 ∧
    (Stepper.Step sysOk 2 (Stepper.mk3 0 8 7) (openWorld 0xA4)).1.1._offset
      = (Stepper.mk3 0 8 7)._offset ∧
    (Stepper.Nudge sysOk (Stepper.Step sysOk 2 (Stepper.mk3 0 8 7) (openWorld 0xA4)).1.1
        (openWorld 0xA4)).2 = Outcome.ok () ∧
    dataWrites (newEvents (openWorld 0xA4)
      (Stepper.Nudge sysOk (Stepper.Step sysOk 2 (Stepper.mk3 0 8 7) (openWorld 0xA4)).1.1
        (openWorld 0xA4)).1.2) = [0xA4] ∧
    (Stepper.Nudge sysOk (Stepper.Step sysOk 2 (Stepper.mk3 0 8 7) (openWorld 0xA4)).1.1
        (openWorld 0xA4)).1.2.dev.data = 0xA4 :=
  have h3 := validating_constructor_offset sysOk 0 8 3 [] (openWorld 0xA4) (openWorld 0xA4)
    (fun _ => rfl) rfl
  have h7 := validating_constructor_offset sysOk 0 8 7 [StepperOp.Step 2] (openWorld 0xA4)
    (openWorld 0xA4) (fun _ => rfl) rfl
  have hn := h7.2.2.2 (by decide)
    (Stepper.Step sysOk 2 (Stepper.mk3 0 8 7) (openWorld 0xA4)).1.1 rfl
  ⟨fun _ => rfl, rfl, h3.1, rfl, h7.2.2.1, hn.1, hn.2.1, hn.2.2⟩

/-- C14 (failing input): the configuration line `Stepper X_axis 0 6 mm`.  `operator>>`
reads its fields into a default-constructed stepper (steps-per-unit 0) and stores the
count 6 as read, which is not a multiple of 4, where the validating constructor given the
same count stores 4; `setSpeed`, `setPos` and `Step` afterwards keep the 6.  With the
line `Stepper X_axis 0 0 mm` the count stored is 0, and the `setSpeed(1)` that
`operator>>` of `Machine` makes next divides by it. -/
theorem extract_stores_unchecked_steps :
    (Stepper.new 0)._steps = 0 ∧
    (Stepper.extract lineSteps6 (Stepper.new 0)).1 = { tokens := [], failed := false } ∧
    (Stepper.extract lineSteps6 (Stepper.new 0)).2._steps = 6 ∧
    (Stepper.extract lineSteps6 (Stepper.new 0)).2._steps % 4 = 2 ∧
    (Stepper.extract lineSteps6 (Stepper.new 0)).2._offset = 0 ∧
    (Stepper.extract lineSteps6 (Stepper.new 0)).2.Name = "X axis" ∧
    (Stepper.mk3 0 6 0)._steps = 4 ∧
    (runStepperOps sysOk [StepperOp.setSpeed 1, StepperOp.setPos 0, StepperOp.Step 4]
      (Stepper.extract lineSteps6 (Stepper.new 0)).2 (openWorld 0)).1.1._steps = 6 ∧
    (Stepper.extract lineSteps0 (Stepper.new 0)).2._steps = 0 ∧
    (Stepper.setSpeed 1 (Stepper.extract lineSteps0 (Stepper.new 0)).2).2
      = Outcome.undefined := by
  refine ⟨rfl, by decide, by decide, by decide, by decide, by decide, rfl, ?_, by decide, ?_⟩
  · rw [runStepperOps_steps]
    decide
  · have h0 : (Stepper.extract lineSteps0 (Stepper.new 0)).2._steps = 0 := by decide
    simp [Stepper.setSpeed, h0]

/-- C15: `Onoff::set(state)` on an open port whose system calls succeed, for every bit
offset in 0..7 and every byte `cur` in the data register: it returns `state`, `get()`
then returns `state`, and the one byte it writes is `(cur & ~(1 << offset)) | (state << offset)`,
which fits in 8 bits, has bit `offset` equal to `state` and every other bit equal to
that bit of `cur`; the data register holds that byte afterwards. -/
theorem onoff_set_writes_own_bit (sys : Nat → Int) (state : Bool) (d : Onoff) (w : World)
    (hsys : ∀ k, sys k = 0) (hopen : w.port.mPortOpened = true) (hoff : d._offset ≤ 7) :
    (Onoff.set sys state d w).2 = Outcome.ok state ∧
    Onoff.get (Onoff.set sys state d w).1.1 = state ∧
    dataWrites (newEvents w (Onoff.set sys state d w).1.2)
      = [(w.dev.data.val &&& intNot (1 <<< d._offset))
          ||| ((if state then 1 else 0) <<< d._offset)] ∧
    (Onoff.set sys state d w).1.2.dev.data.val
      = (w.dev.data.val &&& intNot (1 <<< d._offset))
          ||| ((if state then 1 else 0) <<< d._offset) ∧
    (Onoff.set sys state d w).1.2.dev.data.val < 256 ∧
    (Onoff.set sys state d w).1.2.dev.data.val.testBit d._offset = state ∧
    ∀ j, j ≠ d._offset →
      (Onoff.set sys state d w).1.2.dev.data.val.testBit j = w.dev.data.val.testBit j := by
  have hb : (if state then 1 else 0 : Nat) < 2 ^ 1 := by cases state <;> decide
  have hlt := shiftLeft_mask_lt 1 1 d._offset (by decide) (by omega)
  have hv := field_write_lt 1 1 d._offset w.dev.data.val (if state then 1 else 0) testBit_one hlt
    w.dev.data.isLt hb (by omega)
  have hbit := fun j => field_write_testBit 1 1 d._offset w.dev.data.val (if state then 1 else 0) j
    testBit_one hlt w.dev.data.isLt
  rw [Onoff_set_ok sys hsys state d w hopen (by omega)]
  refine ⟨rfl, rfl, ?_, ?_, ?_, ?_, ?_⟩
  · simp [newEvents, dataWrites, Nat.mod_eq_of_lt hv]
  · simp [byte, Nat.mod_eq_of_lt hv]
  · simp [byte, Nat.mod_eq_of_lt hv, hv]
  · simp only [byte, Nat.mod_eq_of_lt hv, hbit]
    cases state <;> simp
  · intro j hj
    simp only [byte, Nat.mod_eq_of_lt hv, hbit]
    by_cases h1 : d._offset ≤ j
    · have h2 : ¬ (j - d._offset < 1) := by omega
      have h3 : (if state then 1 else 0 : Nat).testBit (j - d._offset) = false :=
        testBit_small _ 1 _ hb (by omega)
      simp [h2, h3]
    · simp [h1]

theorem onoff_set_writes_own_bit_witness :
    (∀ k, sysOk k = 0) ∧ (openWorld 6).port.mPortOpened = true ∧
    (Onoff.set sysOk false { Name := "o", _offset := 2, _state := true, _delay := 0, _speed := 0 }
        (openWorld 6)).2 = Outcome.ok false ∧
    dataWrites (newEvents (openWorld 6)
      (Onoff.set sysOk false { Name := "o", _offset := 2, _state := true, _delay := 0, _speed := 0 }
        (openWorld 6)).1.2)
      = [2] :=
  have h := onoff_set_writes_own_bit sysOk false
    { Name := "o", _offset := 2, _state := true, _delay := 0, _speed := 0 } (openWorld 6)
    (fun _ => rfl) rfl (by decide)
  ⟨fun _ => rfl, rfl, h.1, h.2.2.1⟩

/-- C16 (failing input): `goTo(4294967296)` at position 0 calls `Step` with the `long`
difference converted to `int`, which is 0: it returns normally without a single step and
the position stays 0.  `goTo(0)` at position 5 leaves defined behaviour at its first
reverse step (table index 4). -/
theorem goTo_truncates_difference :
    toInt32 (4294967296 - 0) = 0 ∧
    Stepper.goTo sysOk 4294967296 (stepperAt 0 0 0) (openWorld 0)
      = ((stepperAt 0 0 0, openWorld 0), Outcome.ok ()) ∧
    (Stepper.goTo sysOk 0 (stepperAt 0 5 1) (openWorld 1)).2 = Outcome.undefined ∧
    (Stepper.goTo sysOk 0 (stepperAt 0 5 1) (openWorld 1)).1.1._pos = 4 := by
  refine ⟨rfl, rfl, rfl, rfl⟩

/-- C17: a successful `Close` leaves the handle with an empty name, descriptor 0, not
open and with the data-direction flag false, which are the values the constructor
assigns (the two saved-register bytes, which the constructor does not assign, keep their
content); in particular after a successful `Open` and a successful `Close`. -/
theorem close_resets_handle (sys : Nat → Int) (w w2 : World)
    (hclose : ParallelPort.Close sys w = (w2, Outcome.ok ())) :
    w2.port.mPortName = "" ∧ w2.port.mPortFD = 0 ∧ w2.port.mPortOpened = false ∧
    w2.port.mDataOut = false ∧
    w2.port = ParallelPort.new w.port.mPortSavedRegs ∧
    ∀ (name : String) (w0 : World), ParallelPort.Open sys name w0 = (w, Outcome.ok ()) →
      w2.port = ParallelPort.new (w0.dev.data.val, w0.dev.ctrl.val) := by
  have hw : w.port.mPortOpened = true := by
    cases hw : w.port.mPortOpened with
    | true => rfl
    | false =>
      have h := (closed_port_close sys w hw)
      rw [h] at hclose
      simp at hclose
  have hc := (Close_ok_iff sys w hw).mp (by rw [hclose])
  rw [Close_succeeds sys w hw hc.1 hc.2.1 hc.2.2.1 hc.2.2.2] at hclose
  have hw2 := (Prod.mk.inj hclose).1
  rw [← hw2]
  refine ⟨rfl, rfl, rfl, rfl, rfl, ?_⟩
  intro name w0 hopen
  have hw0 : w0.port.mPortOpened = false := by
    cases h0 : w0.port.mPortOpened with
    | false => rfl
    | true => rw [Open_on_open sys name w0 h0] at hopen; simp at hopen
  have hk := (Open_ok_iff sys name w0 hw0).mp (by rw [hopen])
  rw [Open_succeeds sys name w0 hw0 hk.1 hk.2.1 hk.2.2.1 hk.2.2.2] at hopen
  have hw1 := (Prod.mk.inj hopen).1
  rw [← hw1]
  rfl

theorem close_resets_handle_witness :
    ParallelPort.Close sysFd3 (ParallelPort.Open sysFd3 "/dev/parport0" (closedWorld 5 7 9)).1
      = ((ParallelPort.Close sysFd3
            (ParallelPort.Open sysFd3 "/dev/parport0" (closedWorld 5 7 9)).1).1, Outcome.ok ()) ∧
    (ParallelPort.Close sysFd3
        (ParallelPort.Open sysFd3 "/dev/parport0" (closedWorld 5 7 9)).1).1.port
      = ParallelPort.new (5, 7) :=
  ⟨rfl, (close_resets_handle sysFd3
    (ParallelPort.Open sysFd3 "/dev/parport0" (closedWorld 5 7 9)).1 _ rfl).2.2.2.2.1⟩

/-- C18 (failing input): at position 5 a forward step uses index `5 % 4 = 1` (phase 1)
while a reverse step uses index `3 - (3 - 5) % 4 = 5`, outside the table; at position -1
a reverse step uses index 3 (phase 2) while a forward step uses index `(-1) % 4 = -1`,
outside the table.  The phase therefore depends on the direction of travel. -/
theorem reverse_index_differs_from_forward :
    phaseIndex 1 5 = 1 ∧ graycode2At (phaseIndex 1 5) = some 1 ∧
    phaseIndex (-1) 5 = 5 ∧ graycode2At (phaseIndex (-1) 5) = none ∧
    phaseIndex (-1) (-1) = 3 ∧ graycode2At (phaseIndex (-1) (-1)) = some 2 ∧
    graycode2At (phaseIndex 1 (-1)) = none ∧
    (Stepper.Step sysOk (-1) (stepperAt 0 6 3) (openWorld 3)).2 = Outcome.undefined ∧
    (Stepper.Step sysOk 1 (stepperAt 0 4 0) (openWorld 0)).1.1 = stepperAt 0 5 1 := by
  refine ⟨rfl, rfl, rfl, rfl, rfl, rfl, rfl, rfl, rfl⟩

/-- C19: `Stepper::Nudge` on an open port whose system calls succeed, for every bit
offset in 0..6, every 2-bit phase and every byte `cur` in the data register: it is one
read of the data register followed by one write, of the byte
`(cur & ~(3 << offset)) | (phase << offset)`; that byte fits in 8 bits, its bits `offset`
and `offset + 1` are the two bits of the phase, and every other bit equals that bit of
`cur`.  The stepper itself is unchanged. -/
theorem stepper_nudge_writes_own_bits (sys : Nat → Int) (s : Stepper) (w : World)
    (hsys : ∀ k, sys k = 0) (hopen : w.port.mPortOpened = true) (hoff : s._offset ≤ 6)
    (hph : s._state < 4) :
    (Stepper.Nudge sys s w).2 = Outcome.ok () ∧
    (Stepper.Nudge sys s w).1.1 = s ∧
    newEvents w (Stepper.Nudge sys s w).1.2
      = [Event.ioctl w.port.mPortFD Request.PPRDATA 0 0,
         Event.ioctl w.port.mPortFD Request.PPWDATA
           ((w.dev.data.val &&& intNot (3 <<< s._offset)) ||| (s._state <<< s._offset)) 0] ∧
    (Stepper.Nudge sys s w).1.2.dev.data.val
      = (w.dev.data.val &&& intNot (3 <<< s._offset)) ||| (s._state <<< s._offset) ∧
    (Stepper.Nudge sys s w).1.2.dev.data.val < 256 ∧
    (Stepper.Nudge sys s w).1.2.dev.data.val.testBit s._offset = s._state.testBit 0 ∧
    (Stepper.Nudge sys s w).1.2.dev.data.val.testBit (s._offset + 1) = s._state.testBit 1 ∧
    ∀ j, j ≠ s._offset → j ≠ s._offset + 1 →
      (Stepper.Nudge sys s w).1.2.dev.data.val.testBit j = w.dev.data.val.testBit j := by
  have hb : s._state < 2 ^ 2 := hph
  have hlt := shiftLeft_mask_lt 3 2 s._offset (by decide) (by omega)
  have hv := field_write_lt 3 2 s._offset w.dev.data.val s._state testBit_three hlt
    w.dev.data.isLt hb (by omega)
  have hbit := fun j => field_write_testBit 3 2 s._offset w.dev.data.val s._state j
    testBit_three hlt w.dev.data.isLt
  rw [Nudge_ok sys hsys s w hopen (by omega)]
  refine ⟨rfl, rfl, ?_, ?_, ?_, ?_, ?_, ?_⟩
  · simp [newEvents, Nat.mod_eq_of_lt hv]
  · simp [byte, Nat.mod_eq_of_lt hv]
  · simp [byte, Nat.mod_eq_of_lt hv, hv]
  · simp only [byte, Nat.mod_eq_of_lt hv, hbit]
    simp
  · simp only [byte, Nat.mod_eq_of_lt hv, hbit]
    simp
  · intro j hj hj1
    simp only [byte, Nat.mod_eq_of_lt hv, hbit]
    by_cases h1 : s._offset ≤ j
    · have h2 : ¬ (j - s._offset < 2) := by omega
      have h3 : s._state.testBit (j - s._offset) = false := testBit_small _ 2 _ hb (by omega)
      simp [h2, h3]
    · simp [h1]

theorem stepper_nudge_writes_own_bits_witness :
    (∀ k, sysOk k = 0) ∧ (openWorld 0xA5).port.mPortOpened = true ∧
    (Stepper.Nudge sysOk (stepperAt 2 7 2) (openWorld 0xA5)).2 = Outcome.ok () ∧
    (Stepper.Nudge sysOk (stepperAt 2 7 2) (openWorld 0xA5)).1.2.dev.data.val = 0xA9 ∧
    (Stepper.Nudge sysOk (stepperAt 2 7 2) (openWorld 0xA5)).1.2.dev.data.val.testBit 7
      = (openWorld 0xA5).dev.data.val.testBit 7 :=
  have h := stepper_nudge_writes_own_bits sysOk (stepperAt 2 7 2) (openWorld 0xA5)
    (fun _ => rfl) rfl (by decide) (by decide)
  ⟨fun _ => rfl, rfl, h.1, h.2.2.2.1, h.2.2.2.2.2.2.2 7 (by decide) (by decide)⟩

/-- C20 (failing input): `Open` on a closed handle when `open` and the claim succeed and
the read of the data register fails.  `Open` throws `Read`, and the handle is left open
(`IsOpened()` is true) with its descriptor, on a device that is still open and claimed. -/
theorem open_read_failure_leaves_port_open :
    (closedWorld 5 7 9).port.mPortOpened = false ∧
    (ParallelPort.Open sysNoRead "/dev/parport0" (closedWorld 5 7 9)).2
      = Outcome.throw ParallelPort_errors.Read ∧
    ParallelPort.IsOpened (ParallelPort.Open sysNoRead "/dev/parport0" (closedWorld 5 7 9)).1
      = true ∧
    (ParallelPort.Open sysNoRead "/dev/parport0" (closedWorld 5 7 9)).1.port.mPortFD = 3 ∧
    (ParallelPort.Open sysNoRead "/dev/parport0" (closedWorld 5 7 9)).1.dev.claimed = true ∧
    (ParallelPort.Open sysNoRead "/dev/parport0" (closedWorld 5 7 9)).1.dev.fdOpen = true ∧
    (ParallelPort.Open sysNoRead "/dev/parport0" (closedWorld 5 7 9)).1.dev.trace =
      [Event.sysOpen "/dev/parport0" 3, Event.ioctl 3 Request.PPCLAIM 0 0,
       Event.ioctl 3 Request.PPRDATA 0 (-1)] := by
  refine ⟨rfl, rfl, rfl, rfl, rfl, rfl, rfl⟩

/-- C21: whenever `Close` on an open handle throws, every field of the handle (name,
descriptor, is-open flag, saved registers, direction flag) is as before the call, so
`IsOpened()` is still true; the exception is `Write` (a restoring write failed), `Perm`
(the release of the claim failed) or `Closing` (the `close` of the descriptor failed). -/
theorem close_failure_keeps_handle (sys : Nat → Int) (w : World) (e : ParallelPort_errors)
    (hopen : w.port.mPortOpened = true)
    (hfail : (ParallelPort.Close sys w).2 = Outcome.throw e) :
    (ParallelPort.Close sys w).1.port = w.port ∧
    ParallelPort.IsOpened (ParallelPort.Close sys w).1 = true ∧
    (e = ParallelPort_errors.Write ∨ e = ParallelPort_errors.Perm ∨
      e = ParallelPort_errors.Closing) := by
  have key : (ParallelPort.Close sys w).1.port = w.port ∧
      (e = ParallelPort_errors.Write ∨ e = ParallelPort_errors.Perm ∨
        e = ParallelPort_errors.Closing) := by
    by_cases h0 : sys w.dev.trace.length = 0
    · by_cases h1 : sys (w.dev.trace.length + 1) = 0
      · by_cases h2 : 0 ≤ sys (w.dev.trace.length + 2)
        · by_cases h3 : 0 ≤ sys (w.dev.trace.length + 3)
          · rw [Close_succeeds sys w hopen h0 h1 h2 h3] at hfail
            simp at hfail
          · have hc := Close_close_fails sys w hopen h0 h1 h2 (not_le.mp h3)
            rw [hc.2] at hfail
            exact ⟨hc.1, Or.inr (Or.inr (Outcome.throw.inj hfail).symm)⟩
        · have hc := Close_release_fails sys w hopen h0 h1 (not_le.mp h2)
          rw [hc.2] at hfail
          exact ⟨hc.1, Or.inr (Or.inl (Outcome.throw.inj hfail).symm)⟩
      · have hc := Close_write_ctrl_fails sys w hopen h0 h1
        rw [hc.2] at hfail
        exact ⟨hc.1, Or.inl (Outcome.throw.inj hfail).symm⟩
    · have hc := Close_write_data_fails sys w hopen h0
      rw [hc.2] at hfail
      exact ⟨hc.1, Or.inl (Outcome.throw.inj hfail).symm⟩
  refine ⟨key.1, ?_, key.2⟩
  unfold ParallelPort.IsOpened
  rw [key.1]
  exact hopen

theorem close_failure_keeps_handle_witness :
    (openWorld 6).port.mPortOpened = true ∧
    (ParallelPort.Close sysNoRelease (openWorld 6)).2
      = Outcome.throw ParallelPort_errors.Perm ∧
    (ParallelPort.Close sysNoRelease (openWorld 6)).1.port = (openWorld 6).port ∧
    ParallelPort.IsOpened (ParallelPort.Close sysNoRelease (openWorld 6)).1 = true :=
  have h := close_failure_keeps_handle sysNoRelease (openWorld 6) ParallelPort_errors.Perm rfl rfl
  ⟨rfl, rfl, h.1, h.2.1⟩

/-- C22 (failing input): `setDelay(0)` on an `Onoff` and on a `Stepper`.  Both evaluate
`minute / delay` in `unsigned long` with `delay = 0`, a division by zero, so neither call
completes and the delay is not stored; `setSpeed(0)`, the sibling setter, handles its zero
argument and leaves delay 0.  `setDelay(1000)` stores and returns 1000. -/
theorem setDelay_zero_divides_by_zero :
    (Onoff.setDelay 0 (Onoff.new 0)).2 = Outcome.undefined ∧
    (Stepper.setDelay 0 (stepperAt 0 0 0)).2 = Outcome.undefined ∧
    (Stepper.setDelay 0 (Stepper.setDelay 1000 (stepperAt 0 0 0)).1).1._delay = 1000 ∧
    (Stepper.setSpeed 0 (stepperAt 0 0 0)).2 = Outcome.ok 0 ∧
    (Onoff.setDelay 1000 (Onoff.new 0)).2 = Outcome.ok 1000 ∧
    (Onoff.setDelay 1000 (Onoff.new 0)).1._delay = 1000 := by
  refine ⟨rfl, rfl, rfl, ?_, rfl, rfl⟩
  simp [Stepper.setSpeed]

end PCCNC
